import Mathlib

/-!
Verification of the topology-reconciliation engine of nvidia-xconfig
(`multiple_screens.c`): a shallow embedding of the configuration-graph
data model (Screens, Devices, Monitors, Adjacencies) and of the four
reconciliation operations, with theorems about their behaviour.

Linked C records are embedded as Lean lists; pointer identity is embedded
as a numeric identity tag (`scrId`, `devId`, `monId`) carried by each
record, with cross-record pointers represented as `Option Nat` keys and
fresh allocation driven by a `nextId` counter on the document.  The
device-inventory collaborator (`libnvidia-cfg`) is embedded as explicit
parameters: the raw descriptor list its `nvCfgGetDevices` reports (`none`
for failure) and the per-index primary-GPU predicate.
-/

namespace MultipleScreens

/-- One physical GPU descriptor as reported by the device inventory
(`DeviceRec.dev` in the C source: PCI bus and slot, plus product name). -/
structure DeviceDesc where
  bus : Int
  slot : Int
  name : String
deriving DecidableEq

/-- An option bag: name/value pairs. -/
abbrev OptionBag := List (String × String)

/-- Embedding of `XConfigDeviceRec` (the fields `multiple_screens.c` touches). -/
structure Device where
  devId : Nat
  identifier : String
  vendor : Option String := none
  board : Option String := none
  chipset : Option String := none
  busid : Option String := none
  card : Option String := none
  driver : Option String := none
  ramdac : Option String := none
  comment : Option String := none
  screen : Int := 0
  chipid : Int := -1
  chiprev : Int := -1
  irq : Int := -1
  options : OptionBag := []
deriving DecidableEq

/-- Embedding of `XConfigMonitorRec` (identity and name only; no other field
is read or written by `multiple_screens.c`). -/
structure Monitor where
  monId : Nat
  identifier : String
deriving DecidableEq

/-- Embedding of `XConfigDisplayRec`: the fields deep-copied by
`clone_display_list` (strings and options), plus the plainly `memcpy`-ed
numeric/mode content. -/
structure Display where
  depth : Int := 0
  modes : List String := []
  visual : Option String := none
  comment : Option String := none
  options : OptionBag := []
deriving DecidableEq

/-- Embedding of `XConfigScreenRec` (the fields `multiple_screens.c` touches). -/
structure Screen where
  scrId : Nat
  identifier : String
  device : Option Nat := none
  device_name : Option String := none
  monitor : Option Nat := none
  monitor_name : Option String := none
  defaultdepth : Int := 0
  displays : List Display := []
  options : OptionBag := []
  comment : Option String := none
deriving DecidableEq

/-- Embedding of `XConfigAdjacencyRec`: screen number, screen name, and a
back-reference to the screen. -/
structure Adjacency where
  scrnum : Nat
  screen_name : String
  screen : Nat
deriving DecidableEq

/-- The configuration document: the `XConfigRec` collections plus the
layout's adjacency list, and the fresh-identity counter of the embedding. -/
structure Doc where
  screens : List Screen := []
  devices : List Device := []
  monitors : List Monitor := []
  adjacencies : List Adjacency := []
  nextId : Nat := 0
deriving DecidableEq

/-! ## Bus Locator -/

/-- Split a character list at every colon. -/
def splitCols : List Char → List (List Char)
  | [] => [[]]
  | c :: rest =>
    if c = ':' then [] :: splitCols rest
    else
      match splitCols rest with
      | [] => [[c]]
      | f :: r => (c :: f) :: r

/-- Accumulate decimal digits; fails on a non-digit. -/
def digitsToNatAux : Nat → List Char → Option Nat
  | acc, [] => some acc
  | acc, c :: rest =>
    if c.isDigit then digitsToNatAux (acc * 10 + (c.toNat - 48)) rest else none

/-- Parse one integer field (optional leading minus, then decimal digits). -/
def colToInt : List Char → Option Int
  | [] => none
  | '-' :: rest =>
    if rest = [] then none
    else (digitsToNatAux 0 rest).map (fun n => -(n : Int))
  | c :: rest => (digitsToNatAux 0 (c :: rest)).map (fun n => (n : Int))

/-- Modelled from the spec: the Bus Locator's `parse` of the canonical
`"PCI:<bus>:<slot>:<function>"` colon-separated form, failing if the field
count or a numeric parse fails.  The implementation
(`xconfigParsePciBusString`) lives in the bundled X config parser library,
whose source is not among this repository's source files. -/
def xconfigParsePciBusString (s : String) : Option (Int × Int × Int) :=
  match splitCols s.data with
  | [pfx, b, sl, fn] =>
    if pfx = ['P', 'C', 'I'] then
      match colToInt b, colToInt sl, colToInt fn with
      | some bv, some sv, some fv => some (bv, sv, fv)
      | _, _, _ => none
    else none
  | _ => none

/-- The `"PCI:%d:%d:0"` format written by `snprintf` in steps that assign
bus IDs (`enable_separate_x_screens` step 2) and by screen generation. -/
def formatPci (bus slot : Int) : String :=
  "PCI:" ++ toString bus ++ ":" ++ toString slot ++ ":0"

/-! ## Record Store lookups -/

/-- Find a device record by its identity tag (embeds following a C pointer;
the list walk returns the first record carrying the tag). -/
def findDevice (ds : List Device) (id : Nat) : Option Device :=
  ds.find? (fun dv => dv.devId == id)

/-- Find a monitor record by its identity tag. -/
def findMonitorById (ms : List Monitor) (id : Nat) : Option Monitor :=
  ms.find? (fun m => m.monId == id)

/-- Find a screen record by its identity tag. -/
def findScreenById (ss : List Screen) (id : Nat) : Option Screen :=
  ss.find? (fun s => s.scrId == id)

/-- Embedding of `xconfigFindScreen`: find a screen by its identifier. -/
def xconfigFindScreen (name : String) (ss : List Screen) : Option Screen :=
  ss.find? (fun s => s.identifier == name)

/-- The (bus, slot) of a screen's device, when the screen has a device, the
device has a bus-ID string, and that string parses (the function field is
dropped, as every comparison in `multiple_screens.c` ignores it). -/
def deviceBus (d : Doc) (s : Screen) : Option (Int × Int) :=
  match s.device with
  | none => none
  | some did =>
    match findDevice d.devices did with
    | none => none
    | some dev =>
      match dev.busid with
      | none => none
      | some b =>
        match xconfigParsePciBusString b with
        | none => none
        | some (bv, sv, _) => some (bv, sv)

/-- The (bus, slot) of the candidate screen with identity `sid`. -/
def candBus (d : Doc) (sid : Nat) : Option (Int × Int) :=
  match findScreenById d.screens sid with
  | none => none
  | some s => deviceBus d s

/-! ## create_adjacencies -/

/-- The loop body of `create_adjacencies`, carrying the running screen
number `i`. -/
def create_adjacencies_from (i : Nat) : List Screen → List Adjacency
  | [] => []
  | s :: rest =>
    { scrnum := i, screen_name := s.identifier, screen := s.scrId } ::
      create_adjacencies_from (i + 1) rest

/-- Embedding of `create_adjacencies`: one adjacency per screen in sequence
order, numbered from 0, holding the screen's identifier and a
back-reference.  (The trailing `xconfigGenerateAssignScreenAdjacencies`
call only assigns layout geometry fields not modelled here.) -/
def create_adjacencies (ss : List Screen) : List Adjacency :=
  create_adjacencies_from 0 ss

/-! ## Cloning (split support) -/

/-- Embedding of `clone_display_list`: a deep copy of every display
subsection (in this value semantics, a structurally equal list). -/
def clone_display_list : List Display → List Display
  | [] => []
  | d0 :: rest =>
    { depth := d0.depth, modes := d0.modes, visual := d0.visual,
      comment := d0.comment, options := d0.options } ::
      clone_display_list rest

/-- Embedding of `clone_device`, returning (clone, updated original): the
clone gets the `" (2nd)"`-suffixed identifier, string fields and options
copied, screen index 1, and chip id / chip revision / IRQ reset to -1; the
original's screen index is set to 0. -/
def clone_device (newId : Nat) (device0 : Device) : Device × Device :=
  (⟨newId, device0.identifier ++ " (2nd)", device0.vendor, device0.board,
    device0.chipset, device0.busid, device0.card, device0.driver,
    device0.ramdac, device0.comment, 1, -1, -1, -1, device0.options⟩,
   { device0 with screen := 0 })

/-- Insert clone `c` immediately after the first screen tagged `id`
(embedding of `screen->next = screen0->next; screen0->next = screen`). -/
def spliceAfterScreen (ss : List Screen) (id : Nat) (c : Screen) : List Screen :=
  match ss with
  | [] => []
  | s :: rest =>
    if s.scrId == id then s :: c :: rest
    else s :: spliceAfterScreen rest id c

/-- Replace the first device tagged `id` by `upd` and insert clone `c`
immediately after it (embedding of the in-place `device0->screen = 0`
write together with `device->next = device0->next; device0->next =
device`). -/
def spliceAfterDevice (ds : List Device) (id : Nat) (upd c : Device) : List Device :=
  match ds with
  | [] => []
  | dv :: rest =>
    if dv.devId == id then upd :: c :: rest
    else dv :: spliceAfterDevice rest id upd c

/-- Embedding of `clone_screen` acting on the whole document: duplicate the
screen tagged `sid` (suffixed identifier, cloned device, shared monitor
reference, deep-copied displays and options) and splice the clones
immediately after the originals in the screen and device sequences. -/
def clone_screen (d : Doc) (sid : Nat) : Doc :=
  match findScreenById d.screens sid with
  | none => d
  | some screen0 =>
    match screen0.device with
    | none => d
    | some did =>
      match findDevice d.devices did with
      | none => d
      | some device0 =>
        let devClone := (clone_device d.nextId device0).1
        let device0u := (clone_device d.nextId device0).2
        let scrClone : Screen :=
          { scrId := d.nextId + 1,
            identifier := screen0.identifier ++ " (2nd)",
            device := some devClone.devId,
            device_name := some devClone.identifier,
            monitor := screen0.monitor,
            monitor_name := screen0.monitor_name,
            defaultdepth := screen0.defaultdepth,
            displays := clone_display_list screen0.displays,
            options := screen0.options,
            comment := screen0.comment }
        { d with
          screens := spliceAfterScreen d.screens sid scrClone,
          devices := spliceAfterDevice d.devices did device0u devClone,
          nextId := d.nextId + 2 }

/-! ## Device inventory adapter (find_devices) -/

/-- Swap list entries 0 and `i` (the `memcpy` triple in `find_devices`). -/
def swapWithHead (l : List DeviceDesc) (i : Nat) : List DeviceDesc :=
  match l[0]?, l[i]? with
  | some a, some b => (l.set 0 b).set i a
  | _, _ => l

/-- The per-index body of the `find_devices` loop restricted to its
ordering effect: at index `i ≠ 0`, if the collaborator reports descriptor
`i` as the primary GPU, swap array entries 0 and `i`.  `fuel` counts the
remaining iterations. -/
def primary_loop (isPrimary : Nat → Bool) : Nat → Nat → List DeviceDesc → List DeviceDesc
  | 0, _, arr => arr
  | fuel + 1, i, arr =>
    primary_loop isPrimary fuel (i + 1)
      (if i != 0 && isPrimary i then swapWithHead arr i else arr)

/-- The descriptor order produced by the `find_devices` loop. -/
def primary_reorder (descs : List DeviceDesc) (isPrimary : Nat → Bool) : List DeviceDesc :=
  primary_loop isPrimary descs.length 0 descs

/-- Embedding of `find_devices`: `getDevs` is what `nvCfgGetDevices`
reports (`none` = failure), `isPrimary i` whether the collaborator calls
descriptor `i` primary.  Returns `none` (C: `NULL`) on enumeration failure
or zero devices, otherwise the descriptors with the primary swapped to
position 0. -/
def find_devices (getDevs : Option (List DeviceDesc)) (isPrimary : Nat → Bool) :
    Option (List DeviceDesc) :=
  match getDevs with
  | none => none
  | some descs =>
    if descs.isEmpty then none else some (primary_reorder descs isPrimary)

/-! ## enable_separate_x_screens (split-per-GPU) -/

/-- Step-1/2 busid presence test: `screenlist[i] && screenlist[i]->device
&& screenlist[i]->device->busid`. -/
def screenHasBusid (d : Doc) (sid : Nat) : Bool :=
  match findScreenById d.screens sid with
  | none => false
  | some s =>
    match s.device with
    | none => false
    | some did =>
      match findDevice d.devices did with
      | none => false
      | some dev => dev.busid.isSome

/-- Step-2 per-candidate busid assignment: overwrite the candidate's
device bus ID with `"PCI:<bus>:<slot>:0"` and its board name with the
descriptor's product name. -/
def setCandBus (d : Doc) (sid : Nat) (desc : DeviceDesc) : Doc :=
  match findScreenById d.screens sid with
  | none => d
  | some s =>
    match s.device with
    | none => d
    | some did =>
      { d with devices := d.devices.map (fun dv =>
          if dv.devId == did then
            { dv with busid := some (formatPci desc.bus desc.slot),
                      board := some desc.name }
          else dv) }

/-- Step 2 of `enable_separate_x_screens`: assign bus IDs to all candidates
positionally; candidates beyond the descriptor count are dropped
(`screenlist[i] = NULL`). -/
def assignBusIds : List Nat → List DeviceDesc → Doc → List (Option Nat) × Doc
  | [], _, d => ([], d)
  | _ :: rest, [], d =>
    let r := assignBusIds rest [] d
    (none :: r.1, r.2)
  | sid :: rest, desc :: drest, d =>
    let r := assignBusIds rest drest (setCandBus d sid desc)
    (some sid :: r.1, r.2)

/-- Does some *other* screen (different record) of the document carry a
device whose bus ID parses to the same (bus, slot)? -/
def otherScreenMatches (d : Doc) (sid : Nat) (bv sv : Int) : Bool :=
  d.screens.any (fun s =>
    s.scrId != sid &&
    match deviceBus d s with
    | some (b1, s1) => b1 == bv && s1 == sv
    | none => false)

/-- Step 3 of `enable_separate_x_screens`: a candidate stays eligible only
if its bus ID parses and no other screen of the whole document matches its
(bus, slot); otherwise its slot becomes `none` (C: `screenlist[i] =
NULL`). -/
def eligible (d : Doc) (cands : List (Option Nat)) : List (Option Nat) :=
  cands.map (fun c =>
    match c with
    | none => none
    | some sid =>
      match candBus d sid with
      | none => none
      | some (bv, sv) =>
        if otherScreenMatches d sid bv sv then none else some sid)

/-- Step 4 of `enable_separate_x_screens`: clone every surviving candidate
in list order. -/
def cloneEligible (elig : List (Option Nat)) (d : Doc) : Doc :=
  elig.foldl (fun acc c =>
    match c with
    | none => acc
    | some sid => clone_screen acc sid) d

/-- Embedding of `enable_separate_x_screens`.  `pDevices` is what
`find_devices` would return if called (so callers thread the inventory
collaborator through), `target` is `op->screen`.  Returns the C `int`
status together with the (possibly modified) document. -/
def enable_separate_x_screens (pDevices : Option (List DeviceDesc))
    (target : Option String) (d : Doc) : Bool × Doc :=
  let cands? : Option (List Nat) :=
    match target with
    | some nm =>
      match xconfigFindScreen nm d.screens with
      | none => none
      | some s => some [s.scrId]
    | none => some (d.adjacencies.map (fun a => a.screen))
  match cands? with
  | none => (false, d)
  | some cands =>
    if cands.isEmpty then (false, d)
    else
      let step2 : Option (List (Option Nat) × Doc) :=
        if cands.all (screenHasBusid d) then some (cands.map some, d)
        else
          match pDevices with
          | none => none
          | some descs => some (assignBusIds cands descs d)
      match step2 with
      | none => (false, d)
      | some (cands2, d2) =>
        let d3 := cloneEligible (eligible d2 cands2) d2
        (true, { d3 with adjacencies := create_adjacencies d3.screens })

/-! ## disable_separate_x_screens (merge-per-GPU) -/

/-- Step 2 of `disable_separate_x_screens`: narrow the candidates to those
with a parseable bus ID, recording (identity, bus, slot). -/
def narrowCands (d : Doc) (cands : List Nat) : List (Option (Nat × Int × Int)) :=
  cands.map (fun sid =>
    match candBus d sid with
    | some (bv, sv) => some (sid, bv, sv)
    | none => none)

/-- The inner `j` loop of the duplicate trim: null every later candidate
carrying (bus, slot) = (`bv`, `sv`). -/
def nullLaterEq (bv sv : Int) (l : List (Option (Nat × Int × Int))) :
    List (Option (Nat × Int × Int)) :=
  l.map (fun c =>
    match c with
    | some (sid2, b2, s2) =>
      if b2 == bv && s2 == sv then none else some (sid2, b2, s2)
    | none => none)

/-- Step 3 of `disable_separate_x_screens`, fuelled for structural
recursion (the inner nulling pass preserves length, so `fuel = length`
never runs out). -/
def dedupCandsAux : Nat → List (Option (Nat × Int × Int)) → List (Option (Nat × Int × Int))
  | 0, l => l
  | _ + 1, [] => []
  | fuel + 1, none :: rest => none :: dedupCandsAux fuel rest
  | fuel + 1, some (sid, bv, sv) :: rest =>
    some (sid, bv, sv) :: dedupCandsAux fuel (nullLaterEq bv sv rest)

/-- Step 3 of `disable_separate_x_screens`: every surviving candidate nulls
every *later* candidate carrying the same (bus, slot). -/
def dedupCands (l : List (Option (Nat × Int × Int))) : List (Option (Nat × Int × Int)) :=
  dedupCandsAux l.length l

/-- The spec's wording of the duplicate trim, kept for comparison with the
source-derived `dedupCands`: walking left to right with the set of already
seen (bus, slot) pairs, a candidate whose (bus, slot) was already seen is
dropped, and only the first occurrence survives. -/
def dedupSpecAux (seen : List (Int × Int)) :
    List (Option (Nat × Int × Int)) → List (Option (Nat × Int × Int))
  | [] => []
  | none :: rest => none :: dedupSpecAux seen rest
  | some (sid, bv, sv) :: rest =>
    if (bv, sv) ∈ seen then none :: dedupSpecAux seen rest
    else some (sid, bv, sv) :: dedupSpecAux ((bv, sv) :: seen) rest

/-- Null every candidate whose (bus, slot) belongs to `seen` (bridges the
source's incremental nulling with the spec's seen-set description). -/
def maskSeen (seen : List (Int × Int)) (l : List (Option (Nat × Int × Int))) :
    List (Option (Nat × Int × Int)) :=
  l.map (fun c =>
    match c with
    | some (sid, bv, sv) => if (bv, sv) ∈ seen then none else some (sid, bv, sv)
    | none => none)

/-- The removal scan of step 4: drop from the screen sequence every screen
other than the candidate itself whose device bus ID parses to the
candidate's (bus, slot). -/
def removeMatching (d : Doc) (sid : Nat) (bv sv : Int) : List Screen :=
  d.screens.filter (fun s =>
    !(s.scrId != sid &&
      match deviceBus d s with
      | some (b1, s1) => b1 == bv && s1 == sv
      | none => false))

/-- The trailing `screenlist[i]->device->screen = -1` write of step 4. -/
def setDeviceScreenIdx (d : Doc) (sid : Nat) (v : Int) : Doc :=
  match findScreenById d.screens sid with
  | none => d
  | some s =>
    match s.device with
    | none => d
    | some did =>
      { d with devices := d.devices.map (fun dv =>
          if dv.devId == did then { dv with screen := v } else dv) }

/-- Step 4 of `disable_separate_x_screens`, folded over the de-duplicated
candidates. -/
def mergeSweep (dd : List (Option (Nat × Int × Int))) (d : Doc) : Doc :=
  dd.foldl (fun acc c =>
    match c with
    | none => acc
    | some (sid, bv, sv) =>
      setDeviceScreenIdx { acc with screens := removeMatching acc sid bv sv } sid (-1)) d

/-- Embedding of `free_unused_devices`: drop every device referenced by no
screen, preserving the order of survivors. -/
def free_unused_devices (d : Doc) : Doc :=
  { d with devices := d.devices.filter (fun dv =>
      d.screens.any (fun s => s.device == some dv.devId)) }

/-- Embedding of `free_unused_monitors`. -/
def free_unused_monitors (d : Doc) : Doc :=
  { d with monitors := d.monitors.filter (fun m =>
      d.screens.any (fun s => s.monitor == some m.monId)) }

/-- Embedding of `disable_separate_x_screens` (`target` is `op->screen`).
Note there is no empty-candidate-list failure path here, unlike the
enable direction. -/
def disable_separate_x_screens (target : Option String) (d : Doc) : Bool × Doc :=
  let cands? : Option (List Nat) :=
    match target with
    | some nm =>
      match xconfigFindScreen nm d.screens with
      | none => none
      | some s => some [s.scrId]
    | none => some (d.adjacencies.map (fun a => a.screen))
  match cands? with
  | none => (false, d)
  | some cands =>
    let d2 := mergeSweep (dedupCands (narrowCands d cands)) d
    let d3 := { d2 with adjacencies := create_adjacencies d2.screens }
    (true, free_unused_monitors (free_unused_devices d3))

/-! ## enable_all_gpus (populate-from-inventory) -/

/-- Modelled from the spec: `xconfigGenerateAddScreen` (in the bundled X
config generation library, not among this repository's source files)
creates one new Screen together with its Device and a default Monitor for
GPU `i`, the device's bus location and board name taken from the
descriptor, and appends all three records. -/
def xconfigGenerateAddScreen (d : Doc) (bus slot : Int) (boardname : String)
    (i : Nat) : Doc :=
  let dev : Device :=
    { devId := d.nextId, identifier := "Device" ++ toString i,
      board := some boardname, busid := some (formatPci bus slot) }
  let mon : Monitor := { monId := d.nextId + 1, identifier := "Monitor" ++ toString i }
  let scr : Screen :=
    { scrId := d.nextId + 2, identifier := "Screen" ++ toString i,
      device := some dev.devId, device_name := some dev.identifier,
      monitor := some mon.monId, monitor_name := some mon.identifier }
  { d with screens := d.screens ++ [scr], devices := d.devices ++ [dev],
           monitors := d.monitors ++ [mon], nextId := d.nextId + 3 }

/-- The screen-creation loop of `enable_all_gpus`. -/
def addScreensFrom (i : Nat) : List DeviceDesc → Doc → Doc
  | [], d => d
  | desc :: rest, d =>
    addScreensFrom (i + 1) rest (xconfigGenerateAddScreen d desc.bus desc.slot desc.name i)

/-- Embedding of `enable_all_gpus`: on inventory failure return failure
with the document untouched; otherwise discard the entire screen / device
/ monitor / adjacency state, create one screen per descriptor in
descriptor order, and rebuild the adjacencies. -/
def enable_all_gpus (getDevs : Option (List DeviceDesc)) (isPrimary : Nat → Bool)
    (d : Doc) : Bool × Doc :=
  match find_devices getDevs isPrimary with
  | none => (false, d)
  | some descs =>
    let d1 : Doc := { screens := [], devices := [], monitors := [],
                      adjacencies := [], nextId := d.nextId }
    let d2 := addScreensFrom 0 descs d1
    (true, { d2 with adjacencies := create_adjacencies d2.screens })

/-- Closed form of the screen records `addScreensFrom` builds (index `i`,
identity counter `nid`). -/
def builtScreens (i nid : Nat) : List DeviceDesc → List Screen
  | [] => []
  | _ :: rest =>
    { scrId := nid + 2, identifier := "Screen" ++ toString i,
      device := some nid, device_name := some ("Device" ++ toString i),
      monitor := some (nid + 1), monitor_name := some ("Monitor" ++ toString i) } ::
      builtScreens (i + 1) (nid + 3) rest

/-- Closed form of the device records `addScreensFrom` builds. -/
def builtDevices (i nid : Nat) : List DeviceDesc → List Device
  | [] => []
  | desc :: rest =>
    { devId := nid, identifier := "Device" ++ toString i, board := some desc.name,
      busid := some (formatPci desc.bus desc.slot) } ::
      builtDevices (i + 1) (nid + 3) rest

/-- Closed form of the monitor records `addScreensFrom` builds. -/
def builtMonitors (i nid : Nat) : List DeviceDesc → List Monitor
  | [] => []
  | _ :: rest =>
    { monId := nid + 1, identifier := "Monitor" ++ toString i } ::
      builtMonitors (i + 1) (nid + 3) rest

/-! ## Orphan-freedom predicate -/

/-- Every device and every monitor of the store is referenced by at least
one screen. -/
def allReferenced (d : Doc) : Prop :=
  (∀ dv ∈ d.devices, ∃ s ∈ d.screens, s.device = some dv.devId) ∧
  (∀ m ∈ d.monitors, ∃ s ∈ d.screens, s.monitor = some m.monId)

/-! ## only_one_screen (restrict-to-one) -/

/-- Embedding of `only_one_screen`: fail on an empty screen sequence;
otherwise free every screen after the first, rebuild the adjacencies, and
collect orphaned devices and monitors. -/
def only_one_screen (d : Doc) : Bool × Doc :=
  match d.screens with
  | [] => (false, d)
  | s :: _ =>
    let d1 := { d with screens := [s] }
    let d2 := { d1 with adjacencies := create_adjacencies d1.screens }
    (true, free_unused_monitors (free_unused_devices d2))

/-! ## Round-trip analysis infrastructure

Shapes used to describe the documents produced by split followed by merge:
the split interleaves each original screen with its clone; the merge's
candidate data comes in (original, clone, bus, slot) groups. -/

/-- Original screens interleaved with their clones, in sequence order. -/
def interleave : List Screen → List Screen → List Screen
  | [], _ => []
  | s :: rest, [] => s :: rest
  | s :: rest, c :: cl => s :: c :: interleave rest cl

/-- Flatten (original, clone) pairs into the screen sequence they form. -/
def pairsFlat : List (Screen × Screen) → List Screen
  | [] => []
  | (o, c) :: rest => o :: c :: pairsFlat rest

/-- The parsed candidate entries of a split document: for each (original,
clone) pair sharing (bus, slot), one entry per screen. -/
def pairBusEntries : List ((Screen × Screen) × Int × Int) → List (Option (Nat × Int × Int))
  | [] => []
  | ((o, c), bv, sv) :: rest =>
    some (o.scrId, bv, sv) :: some (c.scrId, bv, sv) :: pairBusEntries rest

/-- The same entries after the duplicate trim: each original survives, each
clone is nulled. -/
def pairBusSurvivors : List ((Screen × Screen) × Int × Int) → List (Option (Nat × Int × Int))
  | [] => []
  | ((o, _), bv, sv) :: rest =>
    some (o.scrId, bv, sv) :: none :: pairBusSurvivors rest

/-! ## Concrete fixtures for witnesses and counterexamples -/

/-- A two-GPU merged-state fixture: distinct bus locations. -/
def wDev0 : Device := { devId := 10, identifier := "nvidia0", busid := some "PCI:1:0:0" }

def wDev1 : Device := { devId := 11, identifier := "nvidia1", busid := some "PCI:2:0:0" }

def wMon0 : Monitor := { monId := 20, identifier := "mon0" }

def wScr0 : Screen := { scrId := 0, identifier := "scrX", device := some 10, monitor := some 20 }

def wScr1 : Screen := { scrId := 1, identifier := "scrY", device := some 11, monitor := some 20 }

def wDocMerged : Doc :=
  { screens := [wScr0, wScr1], devices := [wDev0, wDev1], monitors := [wMon0],
    adjacencies := [⟨0, "scrX", 0⟩, ⟨1, "scrY", 1⟩], nextId := 30 }

/-- An already-split fixture: two screens whose devices share one bus
location. -/
def wDevS0 : Device := { devId := 10, identifier := "nvidia0", busid := some "PCI:0:0:0" }

def wDevS1 : Device := { devId := 11, identifier := "nvidia1", busid := some "PCI:0:0:0" }

def wScrS0 : Screen := { scrId := 0, identifier := "scrX", device := some 10, monitor := some 20 }

def wScrS1 : Screen := { scrId := 1, identifier := "scrY", device := some 11, monitor := some 20 }

def wDocSplit : Doc :=
  { screens := [wScrS0, wScrS1], devices := [wDevS0, wDevS1], monitors := [wMon0],
    adjacencies := [⟨0, "scrX", 0⟩, ⟨1, "scrY", 1⟩], nextId := 30 }

/-- A fixture holding one configured screen plus one orphaned device that
no screen references. -/
def wDevOrphan : Device := { devId := 99, identifier := "stale" }

def wDocOrphan : Doc :=
  { screens := [wScr0], devices := [wDev0, wDevOrphan], monitors := [wMon0],
    adjacencies := [⟨0, "scrX", 0⟩], nextId := 30 }

/-- A fixture with screens present but an empty adjacency list. -/
def wDocNoAdj : Doc :=
  { screens := [wScr0], devices := [wDev0], monitors := [wMon0],
    adjacencies := [], nextId := 30 }

/-- Three inventory descriptors for the primary-reorder analysis. -/
def wDescA : DeviceDesc := ⟨1, 0, "gpuA"⟩

def wDescB : DeviceDesc := ⟨2, 0, "gpuB"⟩

def wDescC : DeviceDesc := ⟨3, 0, "gpuC"⟩

/-- Claim C9's wording of the adapter reordering: move the primary
descriptor to position 0 while keeping the relative order of all remaining
descriptors (a stable permutation of the rest). -/
def moveToFrontSpec (l : List DeviceDesc) (k : Nat) : List DeviceDesc :=
  match l[k]? with
  | none => l
  | some x => x :: l.eraseIdx k

/-! # Theorems -/

/-! ## Helper lemmas -/

theorem clone_display_list_id (l : List Display) : clone_display_list l = l := by
  induction l with
  | nil => rfl
  | cons d0 rest ih => cases d0; simp [clone_display_list, ih]

theorem findScreenById_append (pre post : List Screen) (s0 : Screen)
    (hpre : ∀ s ∈ pre, s.scrId ≠ s0.scrId) :
    findScreenById (pre ++ s0 :: post) s0.scrId = some s0 := by
  induction pre with
  | nil => simp [findScreenById, List.find?]
  | cons p rest ih =>
    have hp : (p.scrId == s0.scrId) = false := by
      simp [hpre p (List.mem_cons_self _ _)]
    simp only [List.cons_append, findScreenById, List.find?, hp]
    exact ih fun s hs => hpre s (List.mem_cons_of_mem _ hs)

theorem findDevice_append (dpre dpost : List Device) (dv0 : Device)
    (hpre : ∀ v ∈ dpre, v.devId ≠ dv0.devId) :
    findDevice (dpre ++ dv0 :: dpost) dv0.devId = some dv0 := by
  induction dpre with
  | nil => simp [findDevice, List.find?]
  | cons p rest ih =>
    have hp : (p.devId == dv0.devId) = false := by
      simp [hpre p (List.mem_cons_self _ _)]
    simp only [List.cons_append, findDevice, List.find?, hp]
    exact ih fun v hv => hpre v (List.mem_cons_of_mem _ hv)

theorem spliceAfterScreen_append (pre post : List Screen) (s0 c : Screen)
    (hpre : ∀ s ∈ pre, s.scrId ≠ s0.scrId) :
    spliceAfterScreen (pre ++ s0 :: post) s0.scrId c = pre ++ s0 :: c :: post := by
  induction pre with
  | nil => simp [spliceAfterScreen]
  | cons p rest ih =>
    have hp : (p.scrId == s0.scrId) = false := by
      simp [hpre p (List.mem_cons_self _ _)]
    simp only [List.cons_append, spliceAfterScreen, hp, Bool.false_eq_true, if_false]
    exact congrArg (p :: ·) (ih fun s hs => hpre s (List.mem_cons_of_mem _ hs))

theorem spliceAfterDevice_append (dpre dpost : List Device) (dv0 upd c : Device)
    (hpre : ∀ v ∈ dpre, v.devId ≠ dv0.devId) :
    spliceAfterDevice (dpre ++ dv0 :: dpost) dv0.devId upd c = dpre ++ upd :: c :: dpost := by
  induction dpre with
  | nil => simp [spliceAfterDevice]
  | cons p rest ih =>
    have hp : (p.devId == dv0.devId) = false := by
      simp [hpre p (List.mem_cons_self _ _)]
    simp only [List.cons_append, spliceAfterDevice, hp, Bool.false_eq_true, if_false]
    exact congrArg (p :: ·) (ih fun v hv => hpre v (List.mem_cons_of_mem _ hv))

theorem create_adjacencies_from_length (i : Nat) (ss : List Screen) :
    (create_adjacencies_from i ss).length = ss.length := by
  induction ss generalizing i with
  | nil => rfl
  | cons s rest ih => simp [create_adjacencies_from, ih]

theorem create_adjacencies_from_get (ss : List Screen) (i j : Nat) (hj : j < ss.length)
    (hj2 : j < (create_adjacencies_from i ss).length) :
    (create_adjacencies_from i ss).get ⟨j, hj2⟩ =
      { scrnum := i + j, screen_name := (ss.get ⟨j, hj⟩).identifier,
        screen := (ss.get ⟨j, hj⟩).scrId } := by
  induction ss generalizing i j with
  | nil => cases hj
  | cons s rest ih =>
    cases j with
    | zero => simp [create_adjacencies_from]
    | succ k =>
      have hk : k < rest.length := Nat.lt_of_succ_lt_succ hj
      have hk2 : k < (create_adjacencies_from (i + 1) rest).length := by
        rw [create_adjacencies_from_length]; exact hk
      simp only [create_adjacencies_from, List.get_cons_succ]
      rw [ih (i + 1) k hk hk2]
      congr 1
      omega

/-- C4: after the shared adjacency-rebuild routine runs, the adjacency
list has exactly one entry per screen of the screen sequence, the entries
appear in screen-sequence order with screen numbers exactly 0..count-1 (no
gaps or repeats), and each entry holds its screen's identifier and a
back-reference to it. -/
theorem create_adjacencies_spec (ss : List Screen) :
    (create_adjacencies ss).length = ss.length ∧
    ∀ j (hj : j < ss.length) (hj2 : j < (create_adjacencies ss).length),
      ((create_adjacencies ss).get ⟨j, hj2⟩).scrnum = j ∧
      ((create_adjacencies ss).get ⟨j, hj2⟩).screen_name = (ss.get ⟨j, hj⟩).identifier ∧
      ((create_adjacencies ss).get ⟨j, hj2⟩).screen = (ss.get ⟨j, hj⟩).scrId := by
  refine ⟨create_adjacencies_from_length 0 ss, fun j hj hj2 => ?_⟩
  simp only [create_adjacencies] at hj2 ⊢
  rw [create_adjacencies_from_get ss 0 j hj hj2]
  exact ⟨Nat.zero_add j, rfl, rfl⟩

/-- Witness for C4 at a concrete two-screen document. -/
theorem create_adjacencies_spec_witness :
    (create_adjacencies [wScr0, wScr1]).length = 2 ∧
    ((create_adjacencies [wScr0, wScr1]).get ⟨1, by decide⟩).scrnum = 1 ∧
    ((create_adjacencies [wScr0, wScr1]).get ⟨1, by decide⟩).screen_name = "scrY" ∧
    ((create_adjacencies [wScr0, wScr1]).get ⟨1, by decide⟩).screen = 1 := by
  obtain ⟨h1, h2⟩ := create_adjacencies_spec [wScr0, wScr1]
  obtain ⟨ha, hb, hc⟩ := h2 1 (by decide) (by decide)
  exact ⟨h1, ha, by rw [hb]; decide, by rw [hc]; decide⟩

/-- C2: cloning an eligible candidate produces a new screen whose identifier
is the original's plus the fixed suffix " (2nd)", whose device is a copy
with the same suffixed identifier, chip id / chip revision / IRQ reset to
the unknown value (-1), screen index 1 on the clone and 0 on the original,
whose monitor reference is shared (the same key, not a copy), whose display
list and option bag are deep copies, and which is spliced immediately after
the original in both the screen and the device sequences. -/
theorem clone_screen_spec (d : Doc) (screen0 : Screen) (did : Nat) (device0 : Device)
    (pre post : List Screen) (dpre dpost : List Device)
    (hdev : screen0.device = some did)
    (hdid : device0.devId = did)
    (hs : d.screens = pre ++ screen0 :: post)
    (hpre : ∀ s ∈ pre, s.scrId ≠ screen0.scrId)
    (hd : d.devices = dpre ++ device0 :: dpost)
    (hdpre : ∀ v ∈ dpre, v.devId ≠ did) :
    clone_screen d screen0.scrId =
      { d with
        screens := pre ++ screen0 ::
          ({ scrId := d.nextId + 1,
             identifier := screen0.identifier ++ " (2nd)",
             device := some d.nextId,
             device_name := some (device0.identifier ++ " (2nd)"),
             monitor := screen0.monitor,
             monitor_name := screen0.monitor_name,
             defaultdepth := screen0.defaultdepth,
             displays := screen0.displays,
             options := screen0.options,
             comment := screen0.comment } : Screen) :: post,
        devices := dpre ++ { device0 with screen := 0 } ::
          ({ devId := d.nextId,
             identifier := device0.identifier ++ " (2nd)",
             vendor := device0.vendor,
             board := device0.board,
             chipset := device0.chipset,
             busid := device0.busid,
             card := device0.card,
             driver := device0.driver,
             ramdac := device0.ramdac,
             comment := device0.comment,
             screen := 1,
             chipid := -1,
             chiprev := -1,
             irq := -1,
             options := device0.options } : Device) :: dpost,
        nextId := d.nextId + 2 } := by
  subst hdid
  have hfs : findScreenById d.screens screen0.scrId = some screen0 := by
    rw [hs]; exact findScreenById_append pre post screen0 hpre
  have hfd : findDevice d.devices device0.devId = some device0 := by
    rw [hd]; exact findDevice_append dpre dpost device0 hdpre
  simp only [clone_screen, hfs, hdev, hfd, clone_device, clone_display_list_id]
  rw [hs, hd, spliceAfterScreen_append pre post screen0 _ hpre,
      spliceAfterDevice_append dpre dpost device0 _ _ hdpre]

/-- Witness for C2 at a concrete two-screen document, cloning the first
screen. -/
theorem clone_screen_spec_witness :
    clone_screen wDocMerged 0 =
      { wDocMerged with
        screens := [wScr0,
          { scrId := 31, identifier := "scrX (2nd)", device := some 30,
            device_name := some "nvidia0 (2nd)", monitor := some 20 },
          wScr1],
        devices := [{ wDev0 with screen := 0 },
          { devId := 30, identifier := "nvidia0 (2nd)",
            busid := some "PCI:1:0:0", screen := 1 },
          wDev1],
        nextId := 32 } := by
  have h := clone_screen_spec wDocMerged wScr0 10 wDev0 [] [wScr1] [] [wDev1]
    (by decide) (by decide) rfl (by decide) rfl (by decide)
  rw [show (0 : Nat) = wScr0.scrId from rfl, h]
  decide

/-- C8: restrict-to-one fails exactly when the screen sequence is empty
(leaving the document untouched); otherwise it keeps only the first screen,
rebuilds the adjacency list to exactly one entry, and collects orphaned
devices and monitors. -/
theorem only_one_screen_spec (d : Doc) :
    ((only_one_screen d).1 = false ↔ d.screens = []) ∧
    ((only_one_screen d).1 = false → (only_one_screen d).2 = d) ∧
    ∀ s rest, d.screens = s :: rest →
      (only_one_screen d).2 =
        { d with
          screens := [s],
          adjacencies := [{ scrnum := 0, screen_name := s.identifier, screen := s.scrId }],
          devices := d.devices.filter (fun dv => s.device == some dv.devId),
          monitors := d.monitors.filter (fun m => s.monitor == some m.monId) } := by
  cases hscr : d.screens with
  | nil =>
    refine ⟨by simp [only_one_screen, hscr], fun _ => by simp [only_one_screen, hscr], ?_⟩
    intro s rest h
    exact List.noConfusion h
  | cons s rest =>
    refine ⟨by simp [only_one_screen, hscr], by simp [only_one_screen, hscr], ?_⟩
    intro s2 rest2 h
    injection h with h1 h2
    subst h1
    simp [only_one_screen, hscr, free_unused_devices, free_unused_monitors,
      create_adjacencies, create_adjacencies_from]

/-- Witness for C8: the empty document fails and is unchanged; a concrete
three-record document collapses to its first screen with one adjacency. -/
theorem only_one_screen_spec_witness :
    ((only_one_screen { }).1 = false ↔ ({ } : Doc).screens = []) ∧
    (only_one_screen wDocMerged).2 =
      { wDocMerged with
        screens := [wScr0],
        adjacencies := [{ scrnum := 0, screen_name := "scrX", screen := 0 }],
        devices := [wDev0],
        monitors := [wMon0] } := by
  constructor
  · exact (only_one_screen_spec { }).1
  · have h := (only_one_screen_spec wDocMerged).2.2 wScr0 [wScr1] rfl
    rw [h]
    decide

/-- C10: with no named target screen and an empty adjacency list, the
split direction computes an empty candidate list and fails outright,
while the merge direction has no such early-failure path and reports
success. -/
theorem empty_candidates_asymmetry (pd : Option (List DeviceDesc)) (d : Doc)
    (h : d.adjacencies = []) :
    enable_separate_x_screens pd none d = (false, d) ∧
    (disable_separate_x_screens none d).1 = true := by
  constructor
  · simp [enable_separate_x_screens, h]
  · simp [disable_separate_x_screens, h, narrowCands, dedupCands, dedupCandsAux, mergeSweep]

/-- Witness for C10 at a document that has a screen but no adjacencies. -/
theorem empty_candidates_asymmetry_witness :
    enable_separate_x_screens none none wDocNoAdj = (false, wDocNoAdj) ∧
    (disable_separate_x_screens none wDocNoAdj).1 = true :=
  empty_candidates_asymmetry none wDocNoAdj rfl

theorem addScreensFrom_eq (descs : List DeviceDesc) : ∀ (i : Nat) (d0 : Doc),
    addScreensFrom i descs d0 =
      { d0 with
        screens := d0.screens ++ builtScreens i d0.nextId descs,
        devices := d0.devices ++ builtDevices i d0.nextId descs,
        monitors := d0.monitors ++ builtMonitors i d0.nextId descs,
        nextId := d0.nextId + 3 * descs.length } := by
  induction descs with
  | nil => intro i d0; simp [addScreensFrom, builtScreens, builtDevices, builtMonitors]
  | cons desc rest ih =>
    intro i d0
    rw [addScreensFrom, ih (i + 1) (xconfigGenerateAddScreen d0 desc.bus desc.slot desc.name i)]
    simp only [xconfigGenerateAddScreen, builtScreens, builtDevices, builtMonitors,
      List.append_assoc, List.cons_append, List.nil_append, List.length_cons]
    refine congrArg (fun n => Doc.mk _ _ _ _ n) ?_
    omega

theorem builtScreens_length (descs : List DeviceDesc) : ∀ i nid,
    (builtScreens i nid descs).length = descs.length := by
  induction descs with
  | nil => intro i nid; rfl
  | cons desc rest ih => intro i nid; simp [builtScreens, ih]

theorem builtDevices_length (descs : List DeviceDesc) : ∀ i nid,
    (builtDevices i nid descs).length = descs.length := by
  induction descs with
  | nil => intro i nid; rfl
  | cons desc rest ih => intro i nid; simp [builtDevices, ih]

theorem builtMonitors_length (descs : List DeviceDesc) : ∀ i nid,
    (builtMonitors i nid descs).length = descs.length := by
  induction descs with
  | nil => intro i nid; rfl
  | cons desc rest ih => intro i nid; simp [builtMonitors, ih]

theorem builtScreens_get (descs : List DeviceDesc) : ∀ i nid j (hj : j < descs.length)
    (hj2 : j < (builtScreens i nid descs).length),
    (builtScreens i nid descs).get ⟨j, hj2⟩ =
      { scrId := nid + 3 * j + 2, identifier := "Screen" ++ toString (i + j),
        device := some (nid + 3 * j), device_name := some ("Device" ++ toString (i + j)),
        monitor := some (nid + 3 * j + 1),
        monitor_name := some ("Monitor" ++ toString (i + j)) } := by
  induction descs with
  | nil => intro i nid j hj; cases hj
  | cons desc rest ih =>
    intro i nid j hj hj2
    cases j with
    | zero => simp [builtScreens]
    | succ k =>
      have hk : k < rest.length := Nat.lt_of_succ_lt_succ hj
      have hk2 : k < (builtScreens (i + 1) (nid + 3) rest).length := by
        rw [builtScreens_length]; exact hk
      simp only [builtScreens, List.get_cons_succ]
      rw [ih (i + 1) (nid + 3) k hk hk2]
      have e1 : nid + 3 + 3 * k = nid + 3 * (k + 1) := by omega
      have e2 : i + 1 + k = i + (k + 1) := by omega
      rw [e1, e2]

theorem builtDevices_get (descs : List DeviceDesc) : ∀ i nid j (hj : j < descs.length)
    (hj2 : j < (builtDevices i nid descs).length),
    (builtDevices i nid descs).get ⟨j, hj2⟩ =
      { devId := nid + 3 * j, identifier := "Device" ++ toString (i + j),
        board := some (descs.get ⟨j, hj⟩).name,
        busid := some (formatPci (descs.get ⟨j, hj⟩).bus (descs.get ⟨j, hj⟩).slot) } := by
  induction descs with
  | nil => intro i nid j hj; cases hj
  | cons desc rest ih =>
    intro i nid j hj hj2
    cases j with
    | zero => simp [builtDevices]
    | succ k =>
      have hk : k < rest.length := Nat.lt_of_succ_lt_succ hj
      have hk2 : k < (builtDevices (i + 1) (nid + 3) rest).length := by
        rw [builtDevices_length]; exact hk
      simp only [builtDevices, List.get_cons_succ]
      rw [ih (i + 1) (nid + 3) k hk hk2]
      have e1 : nid + 3 + 3 * k = nid + 3 * (k + 1) := by omega
      have e2 : i + 1 + k = i + (k + 1) := by omega
      rw [e1, e2]

theorem builtMonitors_get (descs : List DeviceDesc) : ∀ i nid j (hj : j < descs.length)
    (hj2 : j < (builtMonitors i nid descs).length),
    (builtMonitors i nid descs).get ⟨j, hj2⟩ =
      { monId := nid + 3 * j + 1, identifier := "Monitor" ++ toString (i + j) } := by
  induction descs with
  | nil => intro i nid j hj; cases hj
  | cons desc rest ih =>
    intro i nid j hj hj2
    cases j with
    | zero => simp [builtMonitors]
    | succ k =>
      have hk : k < rest.length := Nat.lt_of_succ_lt_succ hj
      have hk2 : k < (builtMonitors (i + 1) (nid + 3) rest).length := by
        rw [builtMonitors_length]; exact hk
      simp only [builtMonitors, List.get_cons_succ]
      rw [ih (i + 1) (nid + 3) k hk hk2]
      have e1 : nid + 3 + 3 * k = nid + 3 * (k + 1) := by omega
      have e2 : i + 1 + k = i + (k + 1) := by omega
      rw [e1, e2]

/-- C5: populate-from-inventory fails (with the document completely
unchanged) when the inventory call fails or reports zero devices; on
success it discards the entire screen/device/monitor/adjacency state and
creates exactly one screen, one device and one monitor per inventory
descriptor, in descriptor order, the device's bus ID and board taken from
its descriptor, each screen referencing its own device and monitor. -/
theorem enable_all_gpus_spec (getDevs : Option (List DeviceDesc))
    (isPrimary : Nat → Bool) (d : Doc) :
    (find_devices getDevs isPrimary = none → enable_all_gpus getDevs isPrimary d = (false, d)) ∧
    (getDevs = none → find_devices getDevs isPrimary = none) ∧
    (getDevs = some [] → find_devices getDevs isPrimary = none) ∧
    ∀ descs, find_devices getDevs isPrimary = some descs →
      enable_all_gpus getDevs isPrimary d =
        (true,
          { screens := builtScreens 0 d.nextId descs,
            devices := builtDevices 0 d.nextId descs,
            monitors := builtMonitors 0 d.nextId descs,
            adjacencies := create_adjacencies (builtScreens 0 d.nextId descs),
            nextId := d.nextId + 3 * descs.length }) ∧
      (builtScreens 0 d.nextId descs).length = descs.length ∧
      (builtDevices 0 d.nextId descs).length = descs.length ∧
      (builtMonitors 0 d.nextId descs).length = descs.length ∧
      ∀ j (hj : j < descs.length) (hjs : j < (builtScreens 0 d.nextId descs).length)
        (hjd : j < (builtDevices 0 d.nextId descs).length)
        (hjm : j < (builtMonitors 0 d.nextId descs).length),
        ((builtDevices 0 d.nextId descs).get ⟨j, hjd⟩).busid =
          some (formatPci (descs.get ⟨j, hj⟩).bus (descs.get ⟨j, hj⟩).slot) ∧
        ((builtDevices 0 d.nextId descs).get ⟨j, hjd⟩).board =
          some (descs.get ⟨j, hj⟩).name ∧
        ((builtScreens 0 d.nextId descs).get ⟨j, hjs⟩).device =
          some ((builtDevices 0 d.nextId descs).get ⟨j, hjd⟩).devId ∧
        ((builtScreens 0 d.nextId descs).get ⟨j, hjs⟩).monitor =
          some ((builtMonitors 0 d.nextId descs).get ⟨j, hjm⟩).monId := by
  refine ⟨fun h => by simp [enable_all_gpus, h], fun h => by simp [find_devices, h],
    fun h => by simp [find_devices, h], fun descs h => ⟨?_, builtScreens_length descs 0 d.nextId,
      builtDevices_length descs 0 d.nextId, builtMonitors_length descs 0 d.nextId,
      fun j hj hjs hjd hjm => ?_⟩⟩
  · simp only [enable_all_gpus, h]
    rw [addScreensFrom_eq descs 0
      { screens := [], devices := [], monitors := [], adjacencies := [], nextId := d.nextId }]
    simp
  · rw [builtDevices_get descs 0 d.nextId j hj hjd, builtScreens_get descs 0 d.nextId j hj hjs,
        builtMonitors_get descs 0 d.nextId j hj hjm]
    exact ⟨rfl, rfl, rfl, rfl⟩

/-- Witness for C5: a failing inventory leaves a concrete document
unchanged, and a two-descriptor inventory rebuilds it from scratch. -/
theorem enable_all_gpus_spec_witness :
    enable_all_gpus none (fun _ => false) wDocMerged = (false, wDocMerged) ∧
    (enable_all_gpus (some [wDescA, wDescB]) (fun _ => false) wDocMerged).2.screens.map
      (fun s => s.identifier) = ["Screen0", "Screen1"] := by
  constructor
  · exact (enable_all_gpus_spec none (fun _ => false) wDocMerged).1 (by decide)
  · rw [((enable_all_gpus_spec (some [wDescA, wDescB]) (fun _ => false) wDocMerged).2.2.2
      [wDescA, wDescB] (by decide)).1]
    decide

theorem busMatchBool_iff (o : Option (Int × Int)) (bv sv : Int) :
    (match o with
     | some (b1, s1) => b1 == bv && s1 == sv
     | none => false) = true ↔ o = some (bv, sv) := by
  cases o with
  | none => simp
  | some p => cases p with | mk b1 s1 => simp

theorem otherScreenMatches_false_iff (d : Doc) (sid : Nat) (bv sv : Int) :
    otherScreenMatches d sid bv sv = false ↔
      ∀ s ∈ d.screens, s.scrId ≠ sid → deviceBus d s ≠ some (bv, sv) := by
  rw [otherScreenMatches, List.any_eq_false]
  constructor
  · intro h s hs hne
    have hb := h s hs
    rw [Bool.and_eq_true, bne_iff_ne, busMatchBool_iff] at hb
    intro hbus
    exact hb ⟨hne, hbus⟩
  · intro h s hs
    rw [Bool.and_eq_true, bne_iff_ne, busMatchBool_iff]
    rintro ⟨hne, hbus⟩
    exact h s hs hne hbus

theorem enable_separate_success_eq (pd : Option (List DeviceDesc)) (d2 : Doc)
    (hne : d2.adjacencies ≠ [])
    (hall : (d2.adjacencies.map (fun a => a.screen)).all (screenHasBusid d2) = true) :
    enable_separate_x_screens pd none d2 =
      (true,
        let d3 := cloneEligible
          (eligible d2 ((d2.adjacencies.map (fun a => a.screen)).map some)) d2
        { d3 with adjacencies := create_adjacencies d3.screens }) := by
  have hcands : (d2.adjacencies.map (fun a => a.screen)).isEmpty = false := by
    rw [List.isEmpty_eq_false_iff_exists_mem]
    obtain ⟨a, ha⟩ := List.exists_mem_of_ne_nil d2.adjacencies hne
    exact ⟨a.screen, List.mem_map_of_mem _ ha⟩
  simp only [enable_separate_x_screens, hcands, Bool.false_eq_true, if_false, hall, if_true]

/-- C1: in split-per-GPU's eligibility pass, a candidate slot stays
occupied (is retained for cloning) if and only if its device's bus ID
parses and no other screen anywhere in the document's screen sequence has
a device whose bus location matches on bus and slot; failing candidates
are silently nulled, and with a nonempty candidate list whose screens all
carry bus IDs the operation still succeeds, cloning exactly the eligible
survivors. -/
theorem enable_eligibility_spec (d : Doc) (cands : List (Option Nat)) :
    (eligible d cands).length = cands.length ∧
    (∀ j (hj : j < cands.length) (hj2 : j < (eligible d cands).length) (sid : Nat),
      cands.get ⟨j, hj⟩ = some sid →
      ((eligible d cands).get ⟨j, hj2⟩ = some sid ↔
        ∃ bv sv, candBus d sid = some (bv, sv) ∧
          ∀ s ∈ d.screens, s.scrId ≠ sid → deviceBus d s ≠ some (bv, sv)) ∧
      ((eligible d cands).get ⟨j, hj2⟩ ≠ some sid →
        (eligible d cands).get ⟨j, hj2⟩ = none)) ∧
    (∀ (pd : Option (List DeviceDesc)) (d2 : Doc),
      d2.adjacencies ≠ [] →
      (d2.adjacencies.map (fun a => a.screen)).all (screenHasBusid d2) = true →
      enable_separate_x_screens pd none d2 =
        (true,
          let d3 := cloneEligible
            (eligible d2 ((d2.adjacencies.map (fun a => a.screen)).map some)) d2
          { d3 with adjacencies := create_adjacencies d3.screens })) := by
  refine ⟨by simp [eligible], fun j hj hj2 sid hc => ?_,
    fun pd d2 hne hall => enable_separate_success_eq pd d2 hne hall⟩
  · have hget : (eligible d cands).get ⟨j, hj2⟩ =
        (match candBus d sid with
         | none => none
         | some (bv, sv) =>
           if otherScreenMatches d sid bv sv then none else some sid) := by
      have hc2 : cands[j] = some sid := hc
      simp [eligible, hc2]
    rw [hget]
    cases hcb : candBus d sid with
    | none => simp
    | some p =>
      cases p with
      | mk bv sv =>
        cases hm : otherScreenMatches d sid bv sv with
        | false =>
          have hall2 := (otherScreenMatches_false_iff d sid bv sv).mp hm
          refine ⟨⟨fun _ => ⟨bv, sv, rfl, hall2⟩, fun _ => by simp [hm]⟩, fun hne2 => ?_⟩
          exact absurd (by simp [hm]) hne2
        | true =>
          refine ⟨⟨fun hfalse => by simp [hm] at hfalse, ?_⟩, fun _ => by simp [hm]⟩
          rintro ⟨bv2, sv2, hcb2, hforall⟩
          injection hcb2 with hp
          injection hp with hb hsv
          subst hb; subst hsv
          have hm2 : otherScreenMatches d sid bv sv = false :=
            (otherScreenMatches_false_iff d sid bv sv).mpr hforall
          rw [hm2] at hm
          exact Bool.noConfusion hm

/-- Witness for C1: on the merged two-GPU fixture, candidate 0 is retained
(it parses and no other screen matches), and the split succeeds. -/
theorem enable_eligibility_spec_witness :
    (eligible wDocMerged [some 0, some 1]).get ⟨0, by decide⟩ = some 0 ∧
    (enable_separate_x_screens none none wDocMerged).1 = true := by
  constructor
  · exact (((enable_eligibility_spec wDocMerged [some 0, some 1]).2.1 0 (by decide)
      (by decide) 0 (by decide)).1).2 ⟨1, 0, by decide, by decide⟩
  · rw [(enable_eligibility_spec wDocMerged [some 0, some 1]).2.2 none wDocMerged
      (by decide) (by decide)]

theorem primary_loop_eq (isPrimary : Nat → Bool) (k : Nat) (hkne : k ≠ 0)
    (hP : ∀ j, isPrimary j = (j == k)) :
    ∀ (fuel i : Nat) (arr : List DeviceDesc),
    primary_loop isPrimary fuel i arr =
      if i ≤ k ∧ k < i + fuel then swapWithHead arr k else arr := by
  intro fuel
  induction fuel with
  | zero =>
    intro i arr
    rw [primary_loop, if_neg (by omega)]
  | succ f ih =>
    intro i arr
    rw [primary_loop, hP i]
    by_cases hik : i = k
    · have hcond : (i != 0 && (i == k)) = true := by
        subst hik; simp [hkne]
      simp only [hcond, if_true]
      rw [ih (i + 1) (swapWithHead arr i), hik]
      rw [if_neg (by omega), if_pos (by omega)]
    · have hcond : (i != 0 && (i == k)) = false := by simp [hik]
      simp only [hcond, Bool.false_eq_true, if_false]
      rw [ih (i + 1) arr]
      by_cases h2 : i + 1 ≤ k ∧ k < i + 1 + f
      · rw [if_pos h2, if_pos (by omega)]
      · rw [if_neg h2, if_neg (by omega)]

/-- C9 (amended): when the collaborator reports the primary GPU at
descriptor index k ≠ 0, `find_devices` swaps descriptors 0 and k: the
primary moves to position 0, the former descriptor 0 moves to position k,
and every other descriptor keeps its position (the relative order of the
rest is *not* preserved in general). -/
theorem primary_reorder_swap (descs : List DeviceDesc) (isPrimary : Nat → Bool)
    (k : Nat) (hk : k < descs.length) (h0 : 0 < descs.length) (hkne : k ≠ 0)
    (hP : ∀ j, isPrimary j = (j == k)) :
    primary_reorder descs isPrimary =
      (descs.set 0 (descs.get ⟨k, hk⟩)).set k (descs.get ⟨0, h0⟩) ∧
    (primary_reorder descs isPrimary).length = descs.length ∧
    ∀ j, j ≠ 0 → j ≠ k →
      (primary_reorder descs isPrimary)[j]? = descs[j]? := by
  have he : primary_reorder descs isPrimary = swapWithHead descs k := by
    rw [primary_reorder, primary_loop_eq isPrimary k hkne hP descs.length 0 descs,
      if_pos ⟨Nat.zero_le k, by omega⟩]
  have hsw : swapWithHead descs k =
      (descs.set 0 (descs.get ⟨k, hk⟩)).set k (descs.get ⟨0, h0⟩) := by
    rw [swapWithHead, List.getElem?_eq_getElem h0, List.getElem?_eq_getElem hk]
    rfl
  rw [he, hsw]
  refine ⟨rfl, by simp, fun j hj0 hjk => ?_⟩
  rw [List.getElem?_set_ne (by omega), List.getElem?_set_ne (by omega)]

/-- Witness for C9's amended swap statement on three concrete
descriptors with the primary at index 2. -/
theorem primary_reorder_swap_witness :
    primary_reorder [wDescA, wDescB, wDescC] (fun j => j == 2) =
      [wDescC, wDescB, wDescA] := by
  rw [(primary_reorder_swap [wDescA, wDescB, wDescC] (fun j => j == 2) 2 (by decide)
    (by decide) (by decide) (fun j => rfl)).1]
  decide

/-- Counterexample to C9 as stated: with three descriptors and the primary
at index 2, the code produces the swap [C, B, A], not the stable
move-to-front [C, A, B]; the relative order of the non-primary descriptors
is reversed. -/
theorem primary_reorder_not_stable_cex :
    primary_reorder [wDescA, wDescB, wDescC] (fun j => j == 2) = [wDescC, wDescB, wDescA] ∧
    moveToFrontSpec [wDescA, wDescB, wDescC] 2 = [wDescC, wDescA, wDescB] ∧
    primary_reorder [wDescA, wDescB, wDescC] (fun j => j == 2) ≠
      moveToFrontSpec [wDescA, wDescB, wDescC] 2 := by
  refine ⟨by decide, by decide, by decide⟩

theorem maskSeen_nil (l : List (Option (Nat × Int × Int))) : maskSeen [] l = l := by
  induction l with
  | nil => rfl
  | cons c rest ih =>
    cases c with
    | none => simp [maskSeen] at ih ⊢; exact ih
    | some p =>
      obtain ⟨sid, bv, sv⟩ := p
      simp [maskSeen] at ih ⊢
      exact ih

theorem nullLaterEq_maskSeen (bv sv : Int) (seen : List (Int × Int))
    (l : List (Option (Nat × Int × Int))) :
    nullLaterEq bv sv (maskSeen seen l) = maskSeen ((bv, sv) :: seen) l := by
  rw [nullLaterEq, maskSeen, List.map_map, maskSeen]
  apply List.map_eq_map_iff.mpr
  intro c _
  cases c with
  | none => rfl
  | some p =>
    obtain ⟨sid2, b2, s2⟩ := p
    by_cases h1 : (b2, s2) ∈ seen
    · simp [Function.comp, h1]
    · by_cases h2 : b2 = bv ∧ s2 = sv
      · obtain ⟨hb, hs⟩ := h2
        subst hb; subst hs
        simp [Function.comp, h1]
      · have hbool : (b2 == bv && s2 == sv) = false := by
          rw [Bool.and_eq_false_iff]
          by_cases hb : b2 = bv
          · right; subst hb; simp; intro hs; exact h2 ⟨rfl, hs⟩
          · left; simp [hb]
        have hmem : ¬((b2, s2) ∈ ((bv, sv) :: seen)) := by
          rw [List.mem_cons]
          rintro (h | h)
          · injection h with ha hb2; exact h2 ⟨ha, hb2⟩
          · exact h1 h
        simp [Function.comp, h1, hbool, hmem]

theorem dedupCandsAux_maskSeen (l : List (Option (Nat × Int × Int))) :
    ∀ (seen : List (Int × Int)) (fuel : Nat), l.length ≤ fuel →
    dedupCandsAux fuel (maskSeen seen l) = dedupSpecAux seen l := by
  induction l with
  | nil =>
    intro seen fuel _
    cases fuel <;> rfl
  | cons c rest ih =>
    intro seen fuel hfuel
    cases fuel with
    | zero => simp at hfuel
    | succ f =>
      have hf : rest.length ≤ f := by simpa using hfuel
      cases c with
      | none =>
        simp only [maskSeen, List.map_cons, dedupCandsAux, dedupSpecAux]
        have := ih seen f hf
        simp only [maskSeen] at this
        rw [this]
      | some p =>
        obtain ⟨sid, bv, sv⟩ := p
        by_cases hmem : (bv, sv) ∈ seen
        · simp only [maskSeen, List.map_cons, if_pos hmem, dedupCandsAux, dedupSpecAux]
          have := ih seen f hf
          simp only [maskSeen] at this
          rw [this]
        · simp only [maskSeen, List.map_cons, if_neg hmem, dedupCandsAux, dedupSpecAux]
          have hmask : nullLaterEq bv sv
              (List.map (fun c =>
                match c with
                | some (sid, bv, sv) => if (bv, sv) ∈ seen then none else some (sid, bv, sv)
                | none => none) rest) = maskSeen ((bv, sv) :: seen) rest := by
            have := nullLaterEq_maskSeen bv sv seen rest
            simpa [maskSeen] using this
          rw [hmask, ih ((bv, sv) :: seen) f hf]

theorem dedupCands_eq_spec (l : List (Option (Nat × Int × Int))) :
    dedupCands l = dedupSpecAux [] l := by
  have h := dedupCandsAux_maskSeen l [] l.length (Nat.le_refl _)
  rwa [maskSeen_nil] at h

theorem dedupSpecAux_not_seen (l : List (Option (Nat × Int × Int))) :
    ∀ (seen : List (Int × Int)) c, c ∈ dedupSpecAux seen l →
    ∀ sid bv sv, c = some (sid, bv, sv) → (bv, sv) ∉ seen := by
  induction l with
  | nil => intro seen c hc; simp [dedupSpecAux] at hc
  | cons c0 rest ih =>
    intro seen c hc sid bv sv hca
    cases c0 with
    | none =>
      rw [dedupSpecAux] at hc
      rcases List.mem_cons.mp hc with h | h
      · subst hca; exact Option.noConfusion h.symm
      · exact ih seen c h sid bv sv hca
    | some p =>
      obtain ⟨sid0, b0, s0⟩ := p
      rw [dedupSpecAux] at hc
      by_cases hmem : (b0, s0) ∈ seen
      · rw [if_pos hmem] at hc
        rcases List.mem_cons.mp hc with h | h
        · subst hca; exact Option.noConfusion h.symm
        · exact ih seen c h sid bv sv hca
      · rw [if_neg hmem] at hc
        rcases List.mem_cons.mp hc with h | h
        · subst hca
          injection h.symm with hp
          injection hp with h1 hp2
          injection hp2 with h2 h3
          subst h2; subst h3
          exact hmem
        · have := ih ((b0, s0) :: seen) c h sid bv sv hca
          intro hmem2
          exact this (List.mem_cons_of_mem _ hmem2)

theorem dedupSpecAux_pairwise (l : List (Option (Nat × Int × Int))) :
    ∀ (seen : List (Int × Int)),
    List.Pairwise (fun c1 c2 => ∀ sid1 sid2 bv sv,
      c1 = some (sid1, bv, sv) → c2 ≠ some (sid2, bv, sv)) (dedupSpecAux seen l) := by
  induction l with
  | nil => intro seen; rw [dedupSpecAux]; exact List.Pairwise.nil
  | cons c0 rest ih =>
    intro seen
    cases c0 with
    | none =>
      rw [dedupSpecAux]
      exact List.Pairwise.cons (fun c _ sid1 sid2 bv sv h => Option.noConfusion h) (ih seen)
    | some p =>
      obtain ⟨sid0, b0, s0⟩ := p
      rw [dedupSpecAux]
      by_cases hmem : (b0, s0) ∈ seen
      · rw [if_pos hmem]
        exact List.Pairwise.cons (fun c _ sid1 sid2 bv sv h => Option.noConfusion h) (ih seen)
      · rw [if_neg hmem]
        refine List.Pairwise.cons (fun c hc sid1 sid2 bv sv h1 h2 => ?_) (ih _)
        injection h1 with hp
        injection hp with hs1 hp2
        injection hp2 with hb hs
        subst hb; subst hs
        exact dedupSpecAux_not_seen rest ((b0, s0) :: seen) c hc sid2 b0 s0 h2
          (List.mem_cons_self _ _)

theorem removeMatching_mem (d : Doc) (sid : Nat) (bv sv : Int) (s : Screen) :
    s ∈ removeMatching d sid bv sv ↔
      s ∈ d.screens ∧ (s.scrId = sid ∨ deviceBus d s ≠ some (bv, sv)) := by
  rw [removeMatching, List.mem_filter]
  refine and_congr_right fun _ => ?_
  rw [Bool.not_eq_true']
  rw [Bool.and_eq_false_iff]
  constructor
  · rintro (h | h)
    · left
      simpa using h
    · right
      intro hbus
      rw [(busMatchBool_iff (deviceBus d s) bv sv).2 hbus] at h
      exact Bool.noConfusion h
  · rintro (h | h)
    · left; simp [h]
    · right
      cases hb : (match deviceBus d s with
        | some (b1, s1) => b1 == bv && s1 == sv
        | none => false) with
      | false => rfl
      | true => exact absurd ((busMatchBool_iff (deviceBus d s) bv sv).1 hb) h

theorem findDevice_map_screenupd (ds : List Device) (did : Nat) (v : Int) (dv : Device)
    (h : findDevice ds did = some dv) :
    findDevice (ds.map (fun x => if x.devId == did then { x with screen := v } else x)) did =
      some { dv with screen := v } := by
  induction ds with
  | nil => simp [findDevice, List.find?] at h
  | cons x rest ih =>
    by_cases hx : x.devId = did
    · have hbeq : (x.devId == did) = true := by simp [hx]
      rw [findDevice, List.find?_cons_of_pos _ (by simpa [findDevice] using hbeq)] at h
      injection h with h
      subst h
      simp only [List.map_cons, if_pos hbeq, findDevice]
      rw [List.find?_cons_of_pos]
      simpa using hx
    · have hbeq : (x.devId == did) = false := by simp [hx]
      rw [findDevice, List.find?_cons_of_neg _ (by simp [hx])] at h
      simp only [List.map_cons, hbeq, Bool.false_eq_true, if_false, findDevice]
      rw [List.find?_cons_of_neg _ (by simp [hx])]
      exact ih h

/-- C3: merge-per-GPU narrows the candidates to those with a parseable bus
location; the surviving candidate list is de-duplicated so that of any two
candidates sharing a (bus, slot) only the first occurrence survives (no
two survivors share a pair); each surviving candidate's sweep keeps
exactly the screens that are the candidate itself or do not match its
(bus, slot), sets the candidate's device screen-index to -1, and the whole
operation is this pipeline followed by adjacency rebuild and orphan
collection. -/
theorem merge_dedup_sweep_spec :
    (∀ l, dedupCands l = dedupSpecAux [] l) ∧
    (∀ l, List.Pairwise (fun c1 c2 => ∀ sid1 sid2 bv sv,
      c1 = some (sid1, bv, sv) → c2 ≠ some (sid2, bv, sv)) (dedupCands l)) ∧
    (∀ (d : Doc) (cands : List Nat) j (hj : j < cands.length)
       (hj2 : j < (narrowCands d cands).length),
      (narrowCands d cands).get ⟨j, hj2⟩ =
        match candBus d (cands.get ⟨j, hj⟩) with
        | some (bv, sv) => some (cands.get ⟨j, hj⟩, bv, sv)
        | none => none) ∧
    (∀ (d : Doc) (sid : Nat) (bv sv : Int) (s : Screen),
      s ∈ removeMatching d sid bv sv ↔
        s ∈ d.screens ∧ (s.scrId = sid ∨ deviceBus d s ≠ some (bv, sv))) ∧
    (∀ (d : Doc) (sid : Nat) (s : Screen) (did : Nat) (dv : Device),
      findScreenById d.screens sid = some s → s.device = some did →
      findDevice d.devices did = some dv →
      findDevice (setDeviceScreenIdx d sid (-1)).devices did = some { dv with screen := -1 }) ∧
    (∀ d : Doc,
      disable_separate_x_screens none d =
        (true,
          let d2 := mergeSweep (dedupCands (narrowCands d (d.adjacencies.map
            (fun a => a.screen)))) d
          free_unused_monitors (free_unused_devices
            { d2 with adjacencies := create_adjacencies d2.screens }))) := by
  refine ⟨dedupCands_eq_spec, ?_, ?_, removeMatching_mem, ?_, fun d => rfl⟩
  · intro l
    rw [dedupCands_eq_spec]
    exact dedupSpecAux_pairwise l []
  · intro d cands j hj hj2
    have hc : cands[j] = cands.get ⟨j, hj⟩ := rfl
    simp [narrowCands]
  · intro d sid s did dv hfs hdev hfd
    simp only [setDeviceScreenIdx, hfs, hdev]
    exact findDevice_map_screenupd d.devices did (-1) dv hfd

/-- Witness for C3: on the already-split fixture the two candidates share
(bus 0, slot 0); only the first survives the trim, the sweep removes the
other screen, and the surviving candidate's device index becomes -1. -/
theorem merge_dedup_sweep_spec_witness :
    dedupCands [some (0, 0, 0), some (1, 0, 0)] =
      dedupSpecAux [] [some (0, 0, 0), some (1, 0, 0)] ∧
    (wScrS1 ∈ removeMatching wDocSplit 0 0 0 ↔
      wScrS1 ∈ wDocSplit.screens ∧ (wScrS1.scrId = 0 ∨ deviceBus wDocSplit wScrS1 ≠ some (0, 0))) ∧
    findDevice (setDeviceScreenIdx wDocSplit 0 (-1)).devices 10 =
      some { wDevS0 with screen := -1 } ∧
    (disable_separate_x_screens none wDocSplit).2.screens = [wScrS0] := by
  refine ⟨merge_dedup_sweep_spec.1 [some (0, 0, 0), some (1, 0, 0)],
    merge_dedup_sweep_spec.2.2.2.1 wDocSplit 0 0 0 wScrS1,
    merge_dedup_sweep_spec.2.2.2.2.1 wDocSplit 0 wScrS0 10 wDevS0 (by decide) (by decide)
      (by decide), ?_⟩
  rw [merge_dedup_sweep_spec.2.2.2.2.2 wDocSplit]
  decide

theorem allReferenced_after_collect (x : Doc) :
    allReferenced (free_unused_monitors (free_unused_devices x)) := by
  constructor
  · intro dv hdv
    simp only [free_unused_monitors, free_unused_devices] at hdv ⊢
    rw [List.mem_filter] at hdv
    obtain ⟨hmem, hany⟩ := hdv
    rw [List.any_eq_true] at hany
    obtain ⟨s, hs, href⟩ := hany
    exact ⟨s, hs, by simpa using href⟩
  · intro m hm
    simp only [free_unused_monitors, free_unused_devices] at hm ⊢
    rw [List.mem_filter] at hm
    obtain ⟨hmem, hany⟩ := hm
    rw [List.any_eq_true] at hany
    obtain ⟨s, hs, href⟩ := hany
    exact ⟨s, hs, by simpa using href⟩

theorem allReferenced_addScreensFrom (descs : List DeviceDesc) : ∀ (i : Nat) (d0 : Doc),
    allReferenced d0 → allReferenced (addScreensFrom i descs d0) := by
  induction descs with
  | nil => intro i d0 h; exact h
  | cons desc rest ih =>
    intro i d0 h
    rw [addScreensFrom]
    apply ih
    obtain ⟨hd, hm⟩ := h
    constructor
    · intro dv hdv
      simp only [xconfigGenerateAddScreen] at hdv ⊢
      rw [List.mem_append] at hdv
      rcases hdv with h1 | h1
      · obtain ⟨s, hs, ha⟩ := hd dv h1
        exact ⟨s, List.mem_append_left _ hs, ha⟩
      · rw [List.mem_singleton] at h1
        subst h1
        refine ⟨_, List.mem_append_right _ (List.mem_singleton.mpr rfl), rfl⟩
    · intro m hm2
      simp only [xconfigGenerateAddScreen] at hm2 ⊢
      rw [List.mem_append] at hm2
      rcases hm2 with h1 | h1
      · obtain ⟨s, hs, ha⟩ := hm m h1
        exact ⟨s, List.mem_append_left _ hs, ha⟩
      · rw [List.mem_singleton] at h1
        subst h1
        refine ⟨_, List.mem_append_right _ (List.mem_singleton.mpr rfl), rfl⟩

/-- C7 (amended): merge-per-GPU and restrict-to-one end by running the
orphan collector, so whenever either reports success every device and
monitor still in the store is referenced by at least one screen;
populate-from-inventory reaches the same state by construction (it builds
only referenced records); split-per-GPU however does not run the
collector, and a pre-existing unreferenced record survives it (see the
counterexample). -/
theorem orphan_collection_spec :
    (∀ (t : Option String) (d : Doc), (disable_separate_x_screens t d).1 = true →
      allReferenced (disable_separate_x_screens t d).2) ∧
    (∀ d : Doc, (only_one_screen d).1 = true → allReferenced (only_one_screen d).2) ∧
    (∀ (gd : Option (List DeviceDesc)) (p : Nat → Bool) (d : Doc),
      (enable_all_gpus gd p d).1 = true → allReferenced (enable_all_gpus gd p d).2) := by
  refine ⟨fun t d htrue => ?_, fun d htrue => ?_, fun gd p d htrue => ?_⟩
  · cases t with
    | none => exact allReferenced_after_collect _
    | some nm =>
      cases hf : xconfigFindScreen nm d.screens with
      | none => simp [disable_separate_x_screens, hf] at htrue
      | some s =>
        simp only [disable_separate_x_screens, hf]
        exact allReferenced_after_collect _
  · cases hscr : d.screens with
    | nil => simp [only_one_screen, hscr] at htrue
    | cons s rest =>
      simp only [only_one_screen, hscr]
      exact allReferenced_after_collect _
  · cases hfd : find_devices gd p with
    | none => simp [enable_all_gpus, hfd] at htrue
    | some descs =>
      simp only [enable_all_gpus, hfd]
      have hbase : allReferenced
          { screens := [], devices := [], monitors := [], adjacencies := [],
            nextId := d.nextId } := by
        constructor
        · intro dv hdv; exact absurd hdv (List.not_mem_nil dv)
        · intro m hm; exact absurd hm (List.not_mem_nil m)
      exact allReferenced_addScreensFrom descs 0 _ hbase

/-- Witness for C7's amended statement: merge on the already-split fixture
succeeds and leaves no orphan; restrict-to-one on the merged fixture
likewise. -/
theorem orphan_collection_spec_witness :
    allReferenced (disable_separate_x_screens none wDocSplit).2 ∧
    allReferenced (only_one_screen wDocMerged).2 :=
  ⟨orphan_collection_spec.1 none wDocSplit (by decide),
   orphan_collection_spec.2.1 wDocMerged (by decide)⟩

/-- Counterexample to C7 as stated: split-per-GPU does not end by running
the orphan collector; on a document with a pre-existing unreferenced
device, split succeeds, yet that device is still present and referenced by
no screen afterwards. -/
theorem orphan_after_split_cex :
    (enable_separate_x_screens none none wDocOrphan).1 = true ∧
    wDevOrphan ∈ (enable_separate_x_screens none none wDocOrphan).2.devices ∧
    ∀ s ∈ (enable_separate_x_screens none none wDocOrphan).2.screens,
      s.device ≠ some wDevOrphan.devId := by decide

/-! ## Round-trip helper lemmas -/

theorem deviceBus_eq_bindForm (d : Doc) (t : Screen) :
    deviceBus d t =
      match (t.device.bind (fun did => findDevice d.devices did)).bind
        (fun dv => dv.busid) with
      | none => none
      | some b =>
        match xconfigParsePciBusString b with
        | none => none
        | some (bv, sv, _) => some (bv, sv) := by
  cases ht : t.device with
  | none => simp [deviceBus, ht]
  | some did =>
    cases hf : findDevice d.devices did with
    | none => simp [deviceBus, ht, hf]
    | some dv =>
      cases hb : dv.busid with
      | none => simp [deviceBus, ht, hf, hb]
      | some b => simp [deviceBus, ht, hf, hb]

theorem deviceBus_ext2 (d1 d2 : Doc) (t1 t2 : Screen)
    (h : (t1.device.bind (fun did => findDevice d1.devices did)).bind (fun dv => dv.busid) =
         (t2.device.bind (fun did => findDevice d2.devices did)).bind (fun dv => dv.busid)) :
    deviceBus d1 t1 = deviceBus d2 t2 := by
  rw [deviceBus_eq_bindForm, deviceBus_eq_bindForm, h]

theorem deviceBus_congr_devices (d1 d2 : Doc) (t : Screen)
    (h : d1.devices = d2.devices) : deviceBus d1 t = deviceBus d2 t := by
  exact deviceBus_ext2 d1 d2 t t (by rw [h])

theorem findDevice_devId (ds : List Device) (x : Nat) (dv : Device)
    (h : findDevice ds x = some dv) : dv.devId = x := by
  have := List.find?_some h
  simpa using this

theorem findScreenById_self (ss : List Screen) (s : Screen)
    (hnd : (ss.map (fun t => t.scrId)).Nodup) (hs : s ∈ ss) :
    findScreenById ss s.scrId = some s := by
  induction ss with
  | nil => cases hs
  | cons t rest ih =>
    rw [List.map_cons, List.nodup_cons] at hnd
    rcases List.mem_cons.mp hs with h | h
    · subst h
      simp [findScreenById, List.find?]
    · by_cases ht : t.scrId = s.scrId
      · exact absurd (ht ▸ List.mem_map_of_mem (fun u => u.scrId) h) hnd.1
      · have : (t.scrId == s.scrId) = false := by simp [ht]
        rw [findScreenById, List.find?_cons_of_neg _ (by simp [ht])]
        exact ih hnd.2 h

theorem findDevice_cons_pos (d0 : Device) (rest : List Device) (x : Nat)
    (h : d0.devId = x) : findDevice (d0 :: rest) x = some d0 := by
  rw [findDevice, List.find?_cons_of_pos _ (by simp [h])]

theorem findDevice_cons_neg (d0 : Device) (rest : List Device) (x : Nat)
    (h : d0.devId ≠ x) : findDevice (d0 :: rest) x = findDevice rest x := by
  rw [findDevice, List.find?_cons_of_neg _ (by simp [h])]
  rfl

theorem deviceBus_isSome_parts (d : Doc) (s : Screen)
    (h : (deviceBus d s).isSome = true) :
    ∃ did dev b bv sv fv, s.device = some did ∧ findDevice d.devices did = some dev ∧
      dev.busid = some b ∧ xconfigParsePciBusString b = some (bv, sv, fv) ∧
      deviceBus d s = some (bv, sv) := by
  cases hd : s.device with
  | none => simp [deviceBus, hd] at h
  | some did =>
    cases hf : findDevice d.devices did with
    | none => simp [deviceBus, hd, hf] at h
    | some dev =>
      cases hb : dev.busid with
      | none => simp [deviceBus, hd, hf, hb] at h
      | some b =>
        cases hp : xconfigParsePciBusString b with
        | none => simp [deviceBus, hd, hf, hb, hp] at h
        | some p =>
          obtain ⟨bv, sv, fv⟩ := p
          exact ⟨did, dev, b, bv, sv, fv, rfl, hf, hb, hp,
            by simp [deviceBus, hd, hf, hb, hp]⟩

theorem spliceAfterDevice_mem (ds : List Device) (id : Nat) (upd c dv : Device)
    (h : dv ∈ spliceAfterDevice ds id upd c) : dv ∈ ds ∨ dv = upd ∨ dv = c := by
  induction ds with
  | nil => rw [spliceAfterDevice] at h; cases h
  | cons d0 rest ih =>
    rw [spliceAfterDevice] at h
    by_cases h0 : d0.devId = id
    · rw [if_pos (by simpa using h0)] at h
      rcases List.mem_cons.mp h with h1 | h1
      · exact Or.inr (Or.inl h1)
      · rcases List.mem_cons.mp h1 with h2 | h2
        · exact Or.inr (Or.inr h2)
        · exact Or.inl (List.mem_cons_of_mem _ h2)
    · rw [if_neg (by simpa using h0)] at h
      rcases List.mem_cons.mp h with h1 | h1
      · exact Or.inl (h1 ▸ List.mem_cons_self _ _)
      · rcases ih h1 with h2 | h2
        · exact Or.inl (List.mem_cons_of_mem _ h2)
        · exact Or.inr h2

theorem findDevice_splice (ds : List Device) (did : Nat) (upd c : Device)
    (hin : (findDevice ds did).isSome = true)
    (hupd : upd.devId = did) :
    ∀ x, x ≠ c.devId →
      findDevice (spliceAfterDevice ds did upd c) x =
        if x = did then some upd else findDevice ds x := by
  induction ds with
  | nil => rw [findDevice] at hin; simp [List.find?] at hin
  | cons d0 rest ih =>
    intro x hx
    by_cases h0 : d0.devId = did
    · rw [spliceAfterDevice, if_pos (by simpa using h0)]
      by_cases hxd : x = did
      · rw [if_pos hxd, findDevice_cons_pos _ _ _ (hupd.trans hxd.symm)]
      · have h1 : upd.devId ≠ x := by rw [hupd]; exact Ne.symm hxd
        have h2 : c.devId ≠ x := Ne.symm hx
        have h3 : d0.devId ≠ x := by rw [h0]; exact Ne.symm hxd
        rw [findDevice_cons_neg _ _ _ h1, findDevice_cons_neg _ _ _ h2, if_neg hxd,
          findDevice_cons_neg _ _ _ h3]
    · rw [spliceAfterDevice, if_neg (by simpa using h0)]
      have hin2 : (findDevice rest did).isSome = true := by
        rwa [findDevice_cons_neg _ _ _ h0] at hin
      by_cases hxd0 : d0.devId = x
      · have hxdid : x ≠ did := fun he => h0 (hxd0.trans he)
        rw [findDevice_cons_pos _ _ _ hxd0, if_neg hxdid, findDevice_cons_pos _ _ _ hxd0]
      · rw [findDevice_cons_neg _ _ _ hxd0, ih hin2 x hx]
        by_cases hxd : x = did
        · rw [if_pos hxd, if_pos hxd]
        · rw [if_neg hxd, if_neg hxd, findDevice_cons_neg _ _ _ hxd0]

theorem findDevice_splice_clone (ds : List Device) (did : Nat) (upd c : Device)
    (hin : (findDevice ds did).isSome = true)
    (hupd : upd.devId = did)
    (hfresh : ∀ v ∈ ds, v.devId ≠ c.devId)
    (hne : did ≠ c.devId) :
    findDevice (spliceAfterDevice ds did upd c) c.devId = some c := by
  induction ds with
  | nil => rw [findDevice] at hin; simp [List.find?] at hin
  | cons d0 rest ih =>
    by_cases h0 : d0.devId = did
    · rw [spliceAfterDevice, if_pos (by simpa using h0)]
      have h1 : upd.devId ≠ c.devId := by rw [hupd]; exact hne
      rw [findDevice_cons_neg _ _ _ h1, findDevice_cons_pos _ _ _ rfl]
    · rw [spliceAfterDevice, if_neg (by simpa using h0)]
      have hin2 : (findDevice rest did).isSome = true := by
        rwa [findDevice_cons_neg _ _ _ h0] at hin
      rw [findDevice_cons_neg _ _ _ (hfresh d0 (List.mem_cons_self _ _))]
      exact ih hin2 fun v hv => hfresh v (List.mem_cons_of_mem _ hv)

theorem nodup_map_append_firstOcc {pre post : List Screen} {s : Screen}
    (h : ((pre ++ s :: post).map (fun t => t.scrId)).Nodup) :
    ∀ t ∈ pre, t.scrId ≠ s.scrId := by
  intro t ht heq
  rw [List.map_append, List.nodup_append] at h
  exact h.2.2 (List.mem_map_of_mem _ ht)
    (by rw [heq, List.map_cons]; exact List.mem_cons_self _ _)

theorem nodup_middle_insert {A B : List Nat} {x y : Nat}
    (h : (A ++ x :: B).Nodup) (hy : y ∉ A ++ x :: B) : (A ++ x :: y :: B).Nodup := by
  have hperm : List.Perm (A ++ x :: y :: B) (y :: (A ++ x :: B)) := by
    have h1 : List.Perm ((A ++ [x]) ++ y :: B) (y :: ((A ++ [x]) ++ B)) :=
      List.perm_middle
    simpa using h1
  exact hperm.nodup_iff.mpr (List.nodup_cons.mpr ⟨hy, h⟩)

theorem cloneEligible_go : ∀ (rem pre : List Screen) (acc : Doc),
    acc.screens = pre ++ rem →
    (∀ s ∈ acc.screens, s.scrId < acc.nextId) →
    ((acc.screens.map (fun t => t.scrId)).Nodup) →
    (∀ dv ∈ acc.devices, dv.devId < acc.nextId) →
    (∀ s ∈ acc.screens, ∀ x, s.device = some x → x < acc.nextId) →
    (∀ s ∈ rem, (deviceBus acc s).isSome = true) →
    ∃ cl : List Screen,
      (cloneEligible (rem.map (fun t => some t.scrId)) acc).screens =
        pre ++ interleave rem cl ∧
      cl.length = rem.length ∧
      ((cloneEligible (rem.map (fun t => some t.scrId)) acc).screens.map
        (fun t => t.scrId)).Nodup ∧
      (∀ t : Screen, (∀ x, t.device = some x → x < acc.nextId) →
        deviceBus (cloneEligible (rem.map (fun t => some t.scrId)) acc) t =
          deviceBus acc t) ∧
      (∀ p ∈ rem.zip cl,
        deviceBus (cloneEligible (rem.map (fun t => some t.scrId)) acc) p.2 =
          deviceBus acc p.1 ∧ p.1.scrId ≠ p.2.scrId) ∧
      acc.nextId ≤ (cloneEligible (rem.map (fun t => some t.scrId)) acc).nextId := by
  intro rem
  induction rem with
  | nil =>
    intro pre acc hscr _ hnd _ _ _
    refine ⟨[], ?_, rfl, ?_, fun t _ => rfl, by simp, Nat.le_refl _⟩
    · rw [cloneEligible]
      simpa [interleave] using hscr
    · rw [cloneEligible]
      simpa using hnd
  | cons s rem' ih =>
    intro pre acc hscr hlt hnd hdevlt hsdevlt hbus
    have hsmem : s ∈ acc.screens := by
      rw [hscr]; exact List.mem_append_right _ (List.mem_cons_self _ _)
    obtain ⟨did, dev, b, bv, sv, fv, hdev, hfd, hbusid, hpar, hdb⟩ :=
      deviceBus_isSome_parts acc s (hbus s (List.mem_cons_self _ _))
    have hpre_ne : ∀ t ∈ pre, t.scrId ≠ s.scrId := by
      intro t ht
      exact nodup_map_append_firstOcc (by rwa [hscr] at hnd) t ht
    have hfs : findScreenById acc.screens s.scrId = some s :=
      findScreenById_self acc.screens s hnd hsmem
    have hdid : dev.devId = did := findDevice_devId acc.devices did dev hfd
    have hdidlt : did < acc.nextId := hsdevlt s hsmem did hdev
    have hfold : cloneEligible ((s :: rem').map (fun t => some t.scrId)) acc =
        cloneEligible (rem'.map (fun t => some t.scrId)) (clone_screen acc s.scrId) := by
      rw [List.map_cons, cloneEligible, List.foldl_cons, cloneEligible]
    have hstep : clone_screen acc s.scrId =
        { acc with
          screens := pre ++ s ::
            ({ scrId := acc.nextId + 1,
               identifier := s.identifier ++ " (2nd)",
               device := some acc.nextId,
               device_name := some (dev.identifier ++ " (2nd)"),
               monitor := s.monitor,
               monitor_name := s.monitor_name,
               defaultdepth := s.defaultdepth,
               displays := clone_display_list s.displays,
               options := s.options,
               comment := s.comment } : Screen) :: rem',
          devices := spliceAfterDevice acc.devices did { dev with screen := 0 }
            ⟨acc.nextId, dev.identifier ++ " (2nd)", dev.vendor, dev.board,
             dev.chipset, dev.busid, dev.card, dev.driver, dev.ramdac,
             dev.comment, 1, -1, -1, -1, dev.options⟩,
          nextId := acc.nextId + 2 } := by
      simp only [clone_screen, hfs, hdev, hfd, clone_device]
      rw [hscr, spliceAfterScreen_append pre rem' s _ hpre_ne]
    set scrClone : Screen :=
      { scrId := acc.nextId + 1,
        identifier := s.identifier ++ " (2nd)",
        device := some acc.nextId,
        device_name := some (dev.identifier ++ " (2nd)"),
        monitor := s.monitor,
        monitor_name := s.monitor_name,
        defaultdepth := s.defaultdepth,
        displays := clone_display_list s.displays,
        options := s.options,
        comment := s.comment } with hscrClone
    set devClone : Device :=
      ⟨acc.nextId, dev.identifier ++ " (2nd)", dev.vendor, dev.board,
       dev.chipset, dev.busid, dev.card, dev.driver, dev.ramdac,
       dev.comment, 1, -1, -1, -1, dev.options⟩ with hdevClone
    have hfdin : (findDevice acc.devices did).isSome = true := by rw [hfd]; rfl
    have hupd : (({ dev with screen := 0 } : Device)).devId = did := hdid
    have hfresh : ∀ v ∈ acc.devices, v.devId ≠ devClone.devId := by
      intro v hv
      have h9 := hdevlt v hv
      rw [hdevClone]
      show v.devId ≠ acc.nextId
      omega
    have hne2 : did ≠ devClone.devId := by
      rw [hdevClone]
      show did ≠ acc.nextId
      omega
    have hstab : ∀ t : Screen, (∀ x, t.device = some x → x < acc.nextId) →
        deviceBus (clone_screen acc s.scrId) t = deviceBus acc t := by
      intro t ht
      apply deviceBus_ext2
      cases htd : t.device with
      | none => rfl
      | some x =>
        have hxlt := ht x htd
        have hxne : x ≠ devClone.devId := by
          rw [hdevClone]
          show x ≠ acc.nextId
          omega
        have hdevices : (clone_screen acc s.scrId).devices =
            spliceAfterDevice acc.devices did { dev with screen := 0 } devClone := by
          rw [hstep]
        simp only [Option.some_bind, hdevices]
        rw [findDevice_splice acc.devices did _ devClone hfdin hupd x hxne]
        by_cases hxdid : x = did
        · rw [if_pos hxdid, hxdid, hfd]
          rfl
        · rw [if_neg hxdid]
    have hclonefind : findDevice (clone_screen acc s.scrId).devices devClone.devId =
        some devClone := by
      have hdevices : (clone_screen acc s.scrId).devices =
          spliceAfterDevice acc.devices did { dev with screen := 0 } devClone := by
        rw [hstep]
      rw [hdevices]
      exact findDevice_splice_clone acc.devices did _ devClone hfdin hupd hfresh hne2
    have hclonebus : deviceBus (clone_screen acc s.scrId) scrClone = deviceBus acc s := by
      rw [hdb]
      have hcdev : scrClone.device = some devClone.devId := by
        rw [hscrClone, hdevClone]
      have hcbusid : devClone.busid = some b := by rw [hdevClone]; exact hbusid
      simp [deviceBus, hcdev, hclonefind, hcbusid, hbusid, hpar]
    have hscr' : (clone_screen acc s.scrId).screens =
        (pre ++ [s, scrClone]) ++ rem' := by
      rw [hstep]
      simp
    have hnext' : (clone_screen acc s.scrId).nextId = acc.nextId + 2 := by rw [hstep]
    have hlt' : ∀ t ∈ (clone_screen acc s.scrId).screens,
        t.scrId < (clone_screen acc s.scrId).nextId := by
      intro t ht
      rw [hscr'] at ht
      rw [hnext']
      rcases List.mem_append.mp ht with h1 | h1
      · rcases List.mem_append.mp h1 with h2 | h2
        · have := hlt t (by rw [hscr]; exact List.mem_append_left _ h2)
          omega
        · rcases List.mem_cons.mp h2 with h3 | h3
          · subst h3
            have := hlt t hsmem
            omega
          · rw [List.mem_singleton] at h3
            subst h3
            rw [hscrClone]
            show acc.nextId + 1 < acc.nextId + 2
            omega
      · have := hlt t (by
          rw [hscr]; exact List.mem_append_right _ (List.mem_cons_of_mem _ h1))
        omega
    have hnd' : ((clone_screen acc s.scrId).screens.map (fun t => t.scrId)).Nodup := by
      rw [hscr']
      have hshape : ((pre ++ [s, scrClone]) ++ rem').map (fun t => t.scrId) =
          (pre.map (fun t => t.scrId)) ++ s.scrId :: scrClone.scrId ::
            (rem'.map (fun t => t.scrId)) := by
        simp
      rw [hshape]
      have hnd0 : ((pre.map (fun t => t.scrId)) ++ s.scrId ::
          (rem'.map (fun t => t.scrId))).Nodup := by
        have := hnd
        rw [hscr] at this
        simpa using this
      apply nodup_middle_insert hnd0
      intro hmem
      have : scrClone.scrId < acc.nextId := by
        rcases List.mem_append.mp hmem with h1 | h1
        · obtain ⟨t, ht, hte⟩ := List.mem_map.mp h1
          have := hlt t (by rw [hscr]; exact List.mem_append_left _ ht)
          omega
        · rcases List.mem_cons.mp h1 with h2 | h2
          · have := hlt s hsmem
            omega
          · obtain ⟨t, ht, hte⟩ := List.mem_map.mp h2
            have := hlt t (by
              rw [hscr]; exact List.mem_append_right _ (List.mem_cons_of_mem _ ht))
            omega
      rw [hscrClone] at this
      have h9 : acc.nextId + 1 < acc.nextId := this
      omega
    have hdevlt' : ∀ dv' ∈ (clone_screen acc s.scrId).devices,
        dv'.devId < (clone_screen acc s.scrId).nextId := by
      intro dv' hdv'
      have hdevices : (clone_screen acc s.scrId).devices =
          spliceAfterDevice acc.devices did { dev with screen := 0 } devClone := by
        rw [hstep]
      rw [hdevices] at hdv'
      rw [hnext']
      rcases spliceAfterDevice_mem acc.devices did _ _ dv' hdv' with h1 | h1 | h1
      · have := hdevlt dv' h1
        omega
      · subst h1
        show dev.devId < acc.nextId + 2
        rw [hdid]
        omega
      · subst h1
        rw [hdevClone]
        show acc.nextId < acc.nextId + 2
        omega
    have hsdevlt' : ∀ t ∈ (clone_screen acc s.scrId).screens, ∀ x,
        t.device = some x → x < (clone_screen acc s.scrId).nextId := by
      intro t ht x htx
      rw [hscr'] at ht
      rw [hnext']
      rcases List.mem_append.mp ht with h1 | h1
      · rcases List.mem_append.mp h1 with h2 | h2
        · have := hsdevlt t (by rw [hscr]; exact List.mem_append_left _ h2) x htx
          omega
        · rcases List.mem_cons.mp h2 with h3 | h3
          · subst h3
            have := hsdevlt t hsmem x htx
            omega
          · rw [List.mem_singleton] at h3
            subst h3
            rw [hscrClone] at htx
            have htx2 : some acc.nextId = some x := htx
            injection htx2 with htx3
            omega
      · have := hsdevlt t (by
          rw [hscr]; exact List.mem_append_right _ (List.mem_cons_of_mem _ h1)) x htx
        omega
    have hbus' : ∀ t ∈ rem', (deviceBus (clone_screen acc s.scrId) t).isSome = true := by
      intro t ht
      have htmem : t ∈ acc.screens := by
        rw [hscr]; exact List.mem_append_right _ (List.mem_cons_of_mem _ ht)
      rw [hstab t (fun x hx => hsdevlt t htmem x hx)]
      exact hbus t (List.mem_cons_of_mem _ ht)
    obtain ⟨cl', hc1, hc2, hc3, hc4, hc5, hc7⟩ :=
      ih (pre ++ [s, scrClone]) (clone_screen acc s.scrId) hscr' hlt' hnd' hdevlt'
        hsdevlt' hbus'
    refine ⟨scrClone :: cl', ?_, by simpa using hc2, by rwa [hfold], ?_, ?_, ?_⟩
    · rw [hfold, hc1]
      simp [interleave]
    · intro t ht
      rw [hfold, hc4 t (fun x hx => by
        have := ht x hx
        rw [hnext']
        omega)]
      exact hstab t ht
    · intro p hp
      rw [List.zip_cons_cons] at hp
      rcases List.mem_cons.mp hp with h1 | h1
      · subst h1
        constructor
        · rw [hfold, hc4 scrClone (fun x hx => by
            rw [hscrClone] at hx
            injection hx with hx2
            rw [hnext']
            omega)]
          exact hclonebus
        · rw [hscrClone]
          have := hlt s hsmem
          simp
          omega
      · obtain ⟨hp1, hp2⟩ := hc5 p h1
        refine ⟨?_, hp2⟩
        rw [hfold, hp1]
        have hp1mem : p.1 ∈ rem' := List.of_mem_zip h1 |>.1
        have hpmem : p.1 ∈ acc.screens := by
          rw [hscr]; exact List.mem_append_right _ (List.mem_cons_of_mem _ hp1mem)
        exact hstab p.1 (fun x hx => hsdevlt p.1 hpmem x hx)
    · rw [hfold]
      have : acc.nextId ≤ (clone_screen acc s.scrId).nextId := by
        rw [hnext']; omega
      omega

theorem create_adjacencies_from_map_screen (ss : List Screen) : ∀ i,
    ((create_adjacencies_from i ss).map (fun a => a.screen)) =
      ss.map (fun t => t.scrId) := by
  induction ss with
  | nil => intro i; rfl
  | cons s rest ih => intro i; simp [create_adjacencies_from, ih (i + 1)]

theorem dedupSpecAux_pairBus : ∀ (pds : List ((Screen × Screen) × Int × Int))
    (seen : List (Int × Int)),
    (∀ p ∈ pds, p.2 ∉ seen) →
    List.Pairwise (fun p q => p.2 ≠ q.2) pds →
    dedupSpecAux seen (pairBusEntries pds) = pairBusSurvivors pds := by
  intro pds
  induction pds with
  | nil => intro seen _ _; rfl
  | cons pd rest ih =>
    obtain ⟨⟨o, c⟩, bv, sv⟩ := pd
    intro seen hseen hpw
    have hmem : (bv, sv) ∉ seen := hseen _ (List.mem_cons_self _ _)
    rw [pairBusEntries, dedupSpecAux, if_neg hmem, dedupSpecAux,
      if_pos (List.mem_cons_self _ _), pairBusSurvivors]
    have hrest : dedupSpecAux ((bv, sv) :: seen) (pairBusEntries rest) =
        pairBusSurvivors rest := by
      apply ih ((bv, sv) :: seen) ?_ hpw.tail
      intro p hp
      rw [List.mem_cons]
      rintro (h | h)
      · exact (List.pairwise_cons.mp hpw).1 p hp h.symm
      · exact hseen p (List.mem_cons_of_mem _ hp) h
    rw [hrest]

theorem setDeviceScreenIdx_fields (dm : Doc) (sid : Nat) (v : Int) :
    (setDeviceScreenIdx dm sid v).screens = dm.screens ∧
    ((setDeviceScreenIdx dm sid v).devices = dm.devices ∨
     ∃ did, (setDeviceScreenIdx dm sid v).devices =
       dm.devices.map (fun dv => if dv.devId == did then { dv with screen := v } else dv)) := by
  cases hfs : findScreenById dm.screens sid with
  | none => simp [setDeviceScreenIdx, hfs]
  | some s =>
    cases hdev : s.device with
    | none => simp [setDeviceScreenIdx, hfs, hdev]
    | some did =>
      exact ⟨by simp [setDeviceScreenIdx, hfs, hdev],
        Or.inr ⟨did, by simp [setDeviceScreenIdx, hfs, hdev]⟩⟩

theorem findDevice_map_preserve (ds : List Device) (f : Device → Device) (x : Nat)
    (hid : ∀ dv, (f dv).devId = dv.devId) :
    findDevice (ds.map f) x = (findDevice ds x).map f := by
  induction ds with
  | nil => rfl
  | cons d0 rest ih =>
    by_cases h0 : d0.devId = x
    · rw [List.map_cons, findDevice_cons_pos _ _ _ (by rw [hid]; exact h0),
        findDevice_cons_pos _ _ _ h0]
      rfl
    · rw [List.map_cons, findDevice_cons_neg _ _ _ (by rw [hid]; exact h0),
        findDevice_cons_neg _ _ _ h0, ih]

theorem deviceBus_setIdx (dm : Doc) (sid : Nat) (v : Int) (t : Screen) :
    deviceBus (setDeviceScreenIdx dm sid v) t = deviceBus dm t := by
  apply deviceBus_ext2
  rcases (setDeviceScreenIdx_fields dm sid v).2 with h | ⟨did, h⟩
  · rw [h]
  · rw [h]
    cases htd : t.device with
    | none => rfl
    | some x =>
      simp only [Option.some_bind]
      rw [findDevice_map_preserve _ _ x
        (fun dv => by by_cases hd : dv.devId = did <;> simp [hd])]
      cases findDevice dm.devices x with
      | none => rfl
      | some dv => by_cases hd : dv.devId = did <;> simp [hd]

theorem removeMatching_pred_true (d : Doc) (sid : Nat) (bv sv : Int) (t : Screen)
    (h : t.scrId = sid ∨ deviceBus d t ≠ some (bv, sv)) :
    (!(t.scrId != sid &&
      match deviceBus d t with
      | some (b1, s1) => b1 == bv && s1 == sv
      | none => false)) = true := by
  rw [Bool.not_eq_true', Bool.and_eq_false_iff]
  rcases h with h | h
  · left; simp [h]
  · right
    cases hb : (match deviceBus d t with
      | some (b1, s1) => b1 == bv && s1 == sv
      | none => false) with
    | false => rfl
    | true => exact absurd ((busMatchBool_iff _ bv sv).1 hb) h

theorem removeMatching_pred_false (d : Doc) (sid : Nat) (bv sv : Int) (t : Screen)
    (h1 : t.scrId ≠ sid) (h2 : deviceBus d t = some (bv, sv)) :
    (!(t.scrId != sid &&
      match deviceBus d t with
      | some (b1, s1) => b1 == bv && s1 == sv
      | none => false)) = false := by
  rw [Bool.not_eq_false', Bool.and_eq_true]
  exact ⟨by simpa using h1, (busMatchBool_iff _ bv sv).2 h2⟩

theorem pairsFlat_mem (l : List (Screen × Screen)) (t : Screen) (ht : t ∈ pairsFlat l) :
    ∃ p ∈ l, t = p.1 ∨ t = p.2 := by
  induction l with
  | nil => cases ht
  | cons q qrest ihq =>
    obtain ⟨q1, q2⟩ := q
    rw [pairsFlat] at ht
    rcases List.mem_cons.mp ht with h1 | h1
    · exact ⟨(q1, q2), List.mem_cons_self _ _, Or.inl h1⟩
    · rcases List.mem_cons.mp h1 with h2 | h2
      · exact ⟨(q1, q2), List.mem_cons_self _ _, Or.inr h2⟩
      · obtain ⟨p, hp, hpo⟩ := ihq h2
        exact ⟨p, List.mem_cons_of_mem _ hp, hpo⟩

theorem mergeSweep_pairs : ∀ (pds : List ((Screen × Screen) × Int × Int)) (dm : Doc)
    (done : List Screen),
    dm.screens = done ++ pairsFlat (pds.map (fun p => p.1)) →
    (∀ p ∈ pds, deviceBus dm p.1.1 = some p.2 ∧ deviceBus dm p.1.2 = some p.2 ∧
      p.1.1.scrId ≠ p.1.2.scrId) →
    List.Pairwise (fun p q => p.2 ≠ q.2) pds →
    (∀ t ∈ done, ∀ p ∈ pds, deviceBus dm t ≠ some p.2) →
    (mergeSweep (pairBusSurvivors pds) dm).screens = done ++ pds.map (fun p => p.1.1) ∧
    ∀ t, deviceBus (mergeSweep (pairBusSurvivors pds) dm) t = deviceBus dm t := by
  intro pds
  induction pds with
  | nil =>
    intro dm done hscr _ _ _
    refine ⟨?_, fun t => rfl⟩
    rw [pairBusSurvivors]
    show dm.screens = done ++ []
    simpa [pairsFlat] using hscr
  | cons pd rest ih =>
    obtain ⟨⟨o, c⟩, bv, sv⟩ := pd
    intro dm done hscr hpairs hpw hdone
    obtain ⟨hbo, hbc, hoc⟩ := hpairs _ (List.mem_cons_self _ _)
    have hscr2 : dm.screens = done ++ o :: c :: pairsFlat (rest.map (fun p => p.1)) := by
      simpa [pairsFlat] using hscr
    have hrm : removeMatching dm o.scrId bv sv =
        done ++ o :: pairsFlat (rest.map (fun p => p.1)) := by
      rw [removeMatching, hscr2, List.filter_append]
      have hfd := List.filter_eq_self.mpr (fun t ht =>
        removeMatching_pred_true dm o.scrId bv sv t
          (Or.inr (hdone t ht _ (List.mem_cons_self _ _))))
      rw [hfd, List.filter_cons_of_pos (p := fun s =>
          !(s.scrId != o.scrId &&
            match deviceBus dm s with
            | some (b1, s1) => b1 == bv && s1 == sv
            | none => false))
          (removeMatching_pred_true dm o.scrId bv sv o (Or.inl rfl)),
        List.filter_cons_of_neg (p := fun s =>
          !(s.scrId != o.scrId &&
            match deviceBus dm s with
            | some (b1, s1) => b1 == bv && s1 == sv
            | none => false))
          (by
            show ¬(!(c.scrId != o.scrId &&
              match deviceBus dm c with
              | some (b1, s1) => b1 == bv && s1 == sv
              | none => false)) = true
            rw [removeMatching_pred_false dm o.scrId bv sv c (Ne.symm hoc) hbc]
            simp)]
      congr 1
      congr 1
      apply List.filter_eq_self.mpr
      intro t ht
      apply removeMatching_pred_true dm o.scrId bv sv t
      right
      obtain ⟨p, hp, hto⟩ := pairsFlat_mem (rest.map (fun p => p.1)) t ht
      obtain ⟨p0, hp0, hpeq⟩ := List.mem_map.mp hp
      obtain ⟨hb1, hb2, _⟩ := hpairs p0 (List.mem_cons_of_mem _ hp0)
      have hne : (bv, sv) ≠ p0.2 := (List.pairwise_cons.mp hpw).1 p0 hp0
      rcases hto with h | h
      · rw [h, ← hpeq, hb1]
        intro he
        injection he with he2
        exact hne he2.symm
      · rw [h, ← hpeq, hb2]
        intro he
        injection he with he2
        exact hne he2.symm
    have hunfold : mergeSweep (pairBusSurvivors (((o, c), bv, sv) :: rest)) dm =
        mergeSweep (pairBusSurvivors rest)
          (setDeviceScreenIdx { dm with screens := removeMatching dm o.scrId bv sv }
            o.scrId (-1)) := by
      rfl
    have hdb1 : ∀ t, deviceBus
        (setDeviceScreenIdx { dm with screens := removeMatching dm o.scrId bv sv }
          o.scrId (-1)) t = deviceBus dm t := by
      intro t
      rw [deviceBus_setIdx]
      exact deviceBus_congr_devices _ _ t rfl
    have hscr3 : (setDeviceScreenIdx { dm with screens := removeMatching dm o.scrId bv sv }
        o.scrId (-1)).screens = (done ++ [o]) ++ pairsFlat (rest.map (fun p => p.1)) := by
      rw [(setDeviceScreenIdx_fields _ _ _).1]
      show removeMatching dm o.scrId bv sv = (done ++ [o]) ++ _
      rw [hrm]
      simp
    obtain ⟨ihs, ihb⟩ := ih
      (setDeviceScreenIdx { dm with screens := removeMatching dm o.scrId bv sv }
        o.scrId (-1))
      (done ++ [o]) hscr3
      (fun p hp => by
        rw [hdb1, hdb1]
        exact hpairs p (List.mem_cons_of_mem _ hp))
      hpw.tail
      (fun t ht p hp => by
        rw [hdb1]
        rcases List.mem_append.mp ht with h1 | h1
        · exact hdone t h1 p (List.mem_cons_of_mem _ hp)
        · rw [List.mem_singleton] at h1
          subst h1
          rw [hbo]
          intro he
          injection he with he2
          exact (List.pairwise_cons.mp hpw).1 p hp he2
        )
    rw [hunfold]
    refine ⟨?_, fun t => (ihb t).trans (hdb1 t)⟩
    rw [ihs]
    simp

theorem eligible_all (d : Doc)
    (hnd : (d.screens.map (fun t => t.scrId)).Nodup)
    (hbus : ∀ s ∈ d.screens, (deviceBus d s).isSome = true)
    (hdist : ∀ s t, s ∈ d.screens → t ∈ d.screens → s.scrId ≠ t.scrId →
      deviceBus d s ≠ deviceBus d t) :
    eligible d (d.screens.map (fun t => some t.scrId)) =
      d.screens.map (fun t => some t.scrId) := by
  rw [eligible, List.map_map]
  apply List.map_eq_map_iff.mpr
  intro s hs
  have hcand : candBus d s.scrId = deviceBus d s := by
    rw [candBus, findScreenById_self d.screens s hnd hs]
  obtain ⟨did, dev, b, bv, sv, fv, _, _, _, _, hdb⟩ :=
    deviceBus_isSome_parts d s (hbus s hs)
  have hother : otherScreenMatches d s.scrId bv sv = false := by
    rw [otherScreenMatches_false_iff]
    intro t ht hne
    rw [← hdb]
    exact hdist t s ht hs hne
  simp [Function.comp, hcand, hdb, hother]

theorem screenHasBusid_of_bus (d : Doc)
    (hnd : (d.screens.map (fun t => t.scrId)).Nodup) (s : Screen)
    (hs : s ∈ d.screens) (hb : (deviceBus d s).isSome = true) :
    screenHasBusid d s.scrId = true := by
  obtain ⟨did, dev, b, bv, sv, fv, hdev, hfd, hbusid, _, _⟩ :=
    deviceBus_isSome_parts d s hb
  simp [screenHasBusid, findScreenById_self d.screens s hnd hs, hdev, hfd, hbusid]

theorem interleave_eq_pairsFlat : ∀ (L cl : List Screen), L.length = cl.length →
    pairsFlat (L.zip cl) = interleave L cl := by
  intro L
  induction L with
  | nil =>
    intro cl h
    cases cl with
    | nil => rfl
    | cons c cl' => simp at h
  | cons o L' ih =>
    intro cl h
    cases cl with
    | nil => simp at h
    | cons c cl' =>
      rw [List.zip_cons_cons, pairsFlat, interleave, ih cl' (by simpa using h)]

theorem pairwise_zip_left {R : Screen → Screen → Prop} : ∀ (L cl : List Screen),
    List.Pairwise R L → List.Pairwise (fun p q => R p.1 q.1) (L.zip cl) := by
  intro L
  induction L with
  | nil => intro cl _; simp
  | cons o L' ih =>
    intro cl hpw
    cases cl with
    | nil => simp
    | cons c cl' =>
      rw [List.zip_cons_cons]
      refine List.Pairwise.cons ?_ (ih cl' hpw.tail)
      intro q hq
      exact (List.pairwise_cons.mp hpw).1 q.1 (List.of_mem_zip hq).1

theorem narrowCands_self (dm : Doc)
    (hnd : (dm.screens.map (fun t => t.scrId)).Nodup) :
    narrowCands dm (dm.screens.map (fun t => t.scrId)) =
      dm.screens.map (fun s =>
        match deviceBus dm s with
        | some (bv, sv) => some (s.scrId, bv, sv)
        | none => none) := by
  rw [narrowCands, List.map_map]
  apply List.map_eq_map_iff.mpr
  intro s hs
  simp [Function.comp, candBus, findScreenById_self dm.screens s hnd hs]

theorem entries_interleave : ∀ (L cl : List Screen) (dm : Doc),
    L.length = cl.length →
    (∀ p ∈ L.zip cl, deviceBus dm p.2 = deviceBus dm p.1 ∧
      (deviceBus dm p.1).isSome = true) →
    (interleave L cl).map (fun s =>
      match deviceBus dm s with
      | some (bv, sv) => some (s.scrId, bv, sv)
      | none => none) =
    pairBusEntries ((L.zip cl).map (fun p =>
      (p, ((deviceBus dm p.1).getD (0, 0)).1, ((deviceBus dm p.1).getD (0, 0)).2))) := by
  intro L
  induction L with
  | nil =>
    intro cl dm h _
    cases cl with
    | nil => rfl
    | cons c cl' => simp at h
  | cons o L' ih =>
    intro cl dm h hp
    cases cl with
    | nil => simp at h
    | cons c cl' =>
      rw [List.zip_cons_cons] at hp ⊢
      obtain ⟨hbe, hbs⟩ := hp (o, c) (List.mem_cons_self _ _)
      obtain ⟨bv, sv, hbo⟩ : ∃ bv sv, deviceBus dm o = some (bv, sv) := by
        cases hx : deviceBus dm o with
        | none => rw [hx] at hbs; simp at hbs
        | some p2 => exact ⟨p2.1, p2.2, by simp [hx]⟩
      have hbc : deviceBus dm c = some (bv, sv) := by rw [hbe, hbo]
      rw [interleave, List.map_cons, List.map_cons, List.map_cons, pairBusEntries]
      rw [ih cl' dm (by simpa using h) (fun q hq => hp q (List.mem_cons_of_mem _ hq))]
      simp [hbo, hbc]

theorem find?_filter_of_pos {α} (l : List α) (p q : α → Bool) (a : α)
    (h : l.find? p = some a) (hq : q a = true) :
    (l.filter q).find? p = some a := by
  induction l with
  | nil => simp [List.find?] at h
  | cons x rest ih =>
    by_cases hx : p x = true
    · rw [List.find?_cons_of_pos _ hx] at h
      injection h with h
      subst h
      rw [List.filter_cons_of_pos hq, List.find?_cons_of_pos _ hx]
    · rw [List.find?_cons_of_neg _ hx] at h
      by_cases hqx : q x = true
      · rw [List.filter_cons_of_pos hqx, List.find?_cons_of_neg _ hx]
        exact ih h
      · rw [List.filter_cons_of_neg hqx]
        exact ih h

theorem find?_filter_of_none {α} (l : List α) (p q : α → Bool)
    (h : l.find? p = none) : (l.filter q).find? p = none := by
  rw [List.find?_eq_none] at h ⊢
  intro a ha
  exact h a (List.mem_of_mem_filter ha)

theorem deviceBus_free_unused (x : Doc) (s : Screen) (hs : s ∈ x.screens) :
    deviceBus (free_unused_devices x) s = deviceBus x s := by
  apply deviceBus_ext2
  cases htd : s.device with
  | none => rfl
  | some did =>
    simp only [Option.some_bind]
    have hdev : (free_unused_devices x).devices =
        x.devices.filter (fun dv => x.screens.any (fun t => t.device == some dv.devId)) :=
      rfl
    rw [hdev]
    cases hfd : findDevice x.devices did with
    | none =>
      have hfd0 : List.find? (fun v => v.devId == did) x.devices = none := hfd
      have h1 := find?_filter_of_none x.devices _
        (fun dv => x.screens.any (fun t => t.device == some dv.devId)) hfd0
      have h2 : findDevice (x.devices.filter
          (fun dv => x.screens.any (fun t => t.device == some dv.devId))) did = none := h1
      rw [h2]
    | some dv =>
      have hdid : dv.devId = did := findDevice_devId x.devices did dv hfd
      have hq : (x.screens.any (fun t => t.device == some dv.devId)) = true := by
        rw [List.any_eq_true]
        refine ⟨s, hs, ?_⟩
        rw [htd, hdid]
        simp
      have hfd0 : List.find? (fun v => v.devId == did) x.devices = some dv := hfd
      have h1 := find?_filter_of_pos x.devices _
        (fun dv => x.screens.any (fun t => t.device == some dv.devId)) dv hfd0 hq
      have h2 : findDevice (x.devices.filter
          (fun dv => x.screens.any (fun t => t.device == some dv.devId))) did = some dv := h1
      rw [h2]

/-- C6 (amended): for a well-formed document in the merged state — unique
screen identities, adjacency list derived from the screen sequence, every
screen's device carrying a parseable bus location, and no two distinct
screens sharing a (bus, slot) — split-per-GPU over the whole layout
followed by merge-per-GPU over the whole layout restores exactly the
original screen sequence, and every screen's (bus, slot) assignment is
unchanged.  (On documents already in the split state the round trip
shrinks the document instead; see the counterexample.) -/
theorem split_merge_roundtrip (d : Doc)
    (hadj : d.adjacencies.map (fun a => a.screen) = d.screens.map (fun t => t.scrId))
    (hnd : (d.screens.map (fun t => t.scrId)).Nodup)
    (hlt : ∀ s ∈ d.screens, s.scrId < d.nextId)
    (hdevlt : ∀ dv ∈ d.devices, dv.devId < d.nextId)
    (hsdevlt : ∀ s ∈ d.screens, ∀ x, s.device = some x → x < d.nextId)
    (hbus : ∀ s ∈ d.screens, (deviceBus d s).isSome = true)
    (hdist : ∀ s t, s ∈ d.screens → t ∈ d.screens → s.scrId ≠ t.scrId →
      deviceBus d s ≠ deviceBus d t) :
    ((disable_separate_x_screens none (enable_separate_x_screens none none d).2).2).screens
      = d.screens ∧
    ∀ s ∈ d.screens,
      deviceBus ((disable_separate_x_screens none
        (enable_separate_x_screens none none d).2).2) s = deviceBus d s := by
  have hgd : ∀ (o : Option (Int × Int)), o.isSome = true →
      o = some ((o.getD (0, 0)).1, (o.getD (0, 0)).2) := by
    intro o ho
    cases o with
    | none => simp at ho
    | some a => simp
  by_cases hscr0 : d.screens = []
  · have hadj0 : d.adjacencies = [] := by
      have h1 : d.adjacencies.map (fun a => a.screen) = [] := by
        rw [hadj, hscr0]; rfl
      exact List.map_eq_nil_iff.mp h1
    have hen : enable_separate_x_screens none none d = (false, d) := by
      simp [enable_separate_x_screens, hadj0]
    rw [hen]
    constructor
    · show (disable_separate_x_screens none d).2.screens = d.screens
      simp [disable_separate_x_screens, hadj0, narrowCands, dedupCands, dedupCandsAux,
        mergeSweep, free_unused_monitors, free_unused_devices]
    · intro s hs
      rw [hscr0] at hs
      cases hs
  · have hne : d.screens ≠ [] := hscr0
    have hadjne : d.adjacencies ≠ [] := by
      intro h
      rw [h] at hadj
      exact hne (List.map_eq_nil_iff.mp hadj.symm)
    have hall : (d.adjacencies.map (fun a => a.screen)).all (screenHasBusid d) = true := by
      rw [hadj, List.all_eq_true]
      intro sid hsid
      obtain ⟨s, hs, hse⟩ := List.mem_map.mp hsid
      rw [← hse]
      exact screenHasBusid_of_bus d hnd s hs (hbus s hs)
    have hen := enable_separate_success_eq none d hadjne hall
    have hcands : (d.adjacencies.map (fun a => a.screen)).map some =
        d.screens.map (fun t => some t.scrId) := by
      rw [hadj, List.map_map]
      rfl
    rw [hcands, eligible_all d hnd hbus hdist] at hen
    have hen2 : enable_separate_x_screens none none d =
        (true, { cloneEligible (d.screens.map (fun t => some t.scrId)) d with
                 adjacencies := create_adjacencies
                   (cloneEligible (d.screens.map (fun t => some t.scrId)) d).screens }) :=
      hen
    rw [hen2]
    obtain ⟨cl, hc1, hc2, hc3, hc4, hc5, hc7⟩ :=
      cloneEligible_go d.screens [] d (by simp) hlt hnd hdevlt hsdevlt hbus
    rw [List.nil_append] at hc1
    -- the document after the split
    set ce := cloneEligible (d.screens.map (fun t => some t.scrId)) d with hce
    set d4 : Doc := { ce with adjacencies := create_adjacencies ce.screens } with hd4v
    -- deviceBus is unchanged between ce and d4
    have hbus4 : ∀ t, deviceBus d4 t = deviceBus ce t := fun t =>
      deviceBus_congr_devices d4 ce t rfl
    -- bus facts on the split document
    have hstab_old : ∀ s ∈ d.screens, deviceBus d4 s = deviceBus d s := by
      intro s hs
      rw [hbus4]
      exact hc4 s (fun x hx => hsdevlt s hs x hx)
    have hstab_cl : ∀ p ∈ d.screens.zip cl, deviceBus d4 p.2 = deviceBus d p.1 := by
      intro p hp
      rw [hbus4]
      exact (hc5 p hp).1
    -- merge candidates
    have hcand4 : d4.adjacencies.map (fun a => a.screen) =
        d4.screens.map (fun t => t.scrId) := by
      show (create_adjacencies ce.screens).map (fun a => a.screen) =
        ce.screens.map (fun t => t.scrId)
      exact create_adjacencies_from_map_screen ce.screens 0
    have hnd4 : (d4.screens.map (fun t => t.scrId)).Nodup := hc3
    -- the candidate-pair data of the merge
    set pds : List ((Screen × Screen) × Int × Int) :=
      (d.screens.zip cl).map (fun p =>
        (p, ((deviceBus d4 p.1).getD (0, 0)).1, ((deviceBus d4 p.1).getD (0, 0)).2))
      with hpds
    have hzipmem : ∀ p ∈ d.screens.zip cl, p.1 ∈ d.screens :=
      fun p hp => (List.of_mem_zip hp).1
    have hbus_zip : ∀ p ∈ d.screens.zip cl,
        deviceBus d4 p.2 = deviceBus d4 p.1 ∧ (deviceBus d4 p.1).isSome = true := by
      intro p hp
      constructor
      · rw [hstab_cl p hp, hstab_old p.1 (hzipmem p hp)]
      · rw [hstab_old p.1 (hzipmem p hp)]
        exact hbus p.1 (hzipmem p hp)
    -- the narrowed candidate list equals the pair entries
    have hnarrow : narrowCands d4 (d4.adjacencies.map (fun a => a.screen)) =
        pairBusEntries pds := by
      rw [hcand4, narrowCands_self d4 hnd4]
      have hscr4 : d4.screens = interleave d.screens cl := hc1
      rw [hscr4]
      exact entries_interleave d.screens cl d4 hc2.symm hbus_zip
    -- the duplicate trim nulls exactly the clones
    have hpw_screens : List.Pairwise (fun s t => deviceBus d s ≠ deviceBus d t)
        d.screens := by
      have h1 : List.Pairwise (fun s t : Screen => s.scrId ≠ t.scrId) d.screens :=
        List.pairwise_map.mp hnd
      exact List.Pairwise.imp_of_mem (fun ha hb hr => hdist _ _ ha hb hr) h1
    have hpw_pds : List.Pairwise (fun p q => p.2 ≠ q.2) pds := by
      rw [hpds]
      apply List.pairwise_map.mpr
      have hz := pairwise_zip_left d.screens cl hpw_screens
      apply List.Pairwise.imp_of_mem ?_ hz
      intro p q hp hq hr heq
      have hps := hstab_old p.1 (hzipmem p hp)
      have hqs := hstab_old q.1 (hzipmem q hq)
      have hps2 : deviceBus d p.1 =
          some (((deviceBus d4 p.1).getD (0, 0)).1, ((deviceBus d4 p.1).getD (0, 0)).2) := by
        rw [← hps]
        exact hgd _ (by rw [hps]; exact hbus p.1 (hzipmem p hp))
      have hqs2 : deviceBus d q.1 =
          some (((deviceBus d4 q.1).getD (0, 0)).1, ((deviceBus d4 q.1).getD (0, 0)).2) := by
        rw [← hqs]
        exact hgd _ (by rw [hqs]; exact hbus q.1 (hzipmem q hq))
      apply hr
      rw [hps2, hqs2]
      injection heq with h1 h2
      rw [h1, h2]
    have hdedup : dedupCands (pairBusEntries pds) = pairBusSurvivors pds := by
      rw [dedupCands_eq_spec]
      exact dedupSpecAux_pairBus pds [] (fun p _ => List.not_mem_nil _) hpw_pds
    -- the sweep
    have hpdsfst : pds.map (fun p => p.1) = d.screens.zip cl := by
      rw [hpds, List.map_map]
      have hco : ((fun p : (Screen × Screen) × Int × Int => p.1) ∘
          (fun p : Screen × Screen =>
            (p, ((deviceBus d4 p.1).getD (0, 0)).1, ((deviceBus d4 p.1).getD (0, 0)).2))) =
          (fun p : Screen × Screen => p) := rfl
      rw [hco]
      simp
    have hsw := mergeSweep_pairs pds d4 []
      (by
        rw [List.nil_append, hpdsfst, interleave_eq_pairsFlat d.screens cl hc2.symm]
        exact hc1)
      (by
        intro p hp
        rw [hpds] at hp
        obtain ⟨q, hq, hqe⟩ := List.mem_map.mp hp
        subst hqe
        obtain ⟨hqb, hqs⟩ := hbus_zip q hq
        refine ⟨?_, ?_, (hc5 q hq).2⟩
        · exact hgd _ hqs
        · rw [hqb]
          exact hgd _ hqs)
      hpw_pds
      (fun t ht => absurd ht (List.not_mem_nil t))
    obtain ⟨hsw1, hsw2⟩ := hsw
    have hpds11 : pds.map (fun p => p.1.1) = d.screens := by
      rw [hpds, List.map_map]
      have : ((fun p : (Screen × Screen) × Int × Int => p.1.1) ∘
          (fun p : Screen × Screen =>
            (p, ((deviceBus d4 p.1).getD (0, 0)).1, ((deviceBus d4 p.1).getD (0, 0)).2))) =
          (fun p : Screen × Screen => p.1) := rfl
      rw [this]
      exact List.map_fst_zip d.screens cl (by omega)
    -- assemble the merge result
    have hdis : disable_separate_x_screens none d4 =
        (true, free_unused_monitors (free_unused_devices
          { mergeSweep (dedupCands (narrowCands d4
              (d4.adjacencies.map (fun a => a.screen)))) d4 with
            adjacencies := create_adjacencies
              (mergeSweep (dedupCands (narrowCands d4
                (d4.adjacencies.map (fun a => a.screen)))) d4).screens })) := rfl
    rw [hdis, hnarrow, hdedup]
    constructor
    · show (mergeSweep (pairBusSurvivors pds) d4).screens = d.screens
      rw [hsw1, List.nil_append, hpds11]
    · intro s hs
      have hsmem2 : s ∈ ({ mergeSweep (pairBusSurvivors pds) d4 with
          adjacencies := create_adjacencies
            (mergeSweep (pairBusSurvivors pds) d4).screens } : Doc).screens := by
        show s ∈ (mergeSweep (pairBusSurvivors pds) d4).screens
        rw [hsw1, List.nil_append, hpds11]
        exact hs
      have hstep1 : deviceBus (free_unused_monitors (free_unused_devices
          { mergeSweep (pairBusSurvivors pds) d4 with
            adjacencies := create_adjacencies
              (mergeSweep (pairBusSurvivors pds) d4).screens })) s =
          deviceBus (free_unused_devices
            { mergeSweep (pairBusSurvivors pds) d4 with
              adjacencies := create_adjacencies
                (mergeSweep (pairBusSurvivors pds) d4).screens }) s :=
        deviceBus_congr_devices _ _ s rfl
      rw [hstep1, deviceBus_free_unused _ s hsmem2]
      have hstep2 : deviceBus
          ({ mergeSweep (pairBusSurvivors pds) d4 with
             adjacencies := create_adjacencies
               (mergeSweep (pairBusSurvivors pds) d4).screens }) s =
          deviceBus (mergeSweep (pairBusSurvivors pds) d4) s :=
        deviceBus_congr_devices _ _ s rfl
      rw [hstep2, hsw2 s]
      exact hstab_old s hs

/-- Witness for C6's amended round trip on the concrete merged two-GPU
fixture. -/
theorem split_merge_roundtrip_witness :
    ((disable_separate_x_screens none
      (enable_separate_x_screens none none wDocMerged).2).2).screens =
      wDocMerged.screens :=
  (split_merge_roundtrip wDocMerged (by decide) (by decide) (by decide) (by decide)
    (by decide) (by decide)
    (by
      intro s t hs ht hne
      have hs2 : s = wScr0 ∨ s = wScr1 := by simpa [wDocMerged] using hs
      have ht2 : t = wScr0 ∨ t = wScr1 := by simpa [wDocMerged] using ht
      rcases hs2 with h1 | h1 <;> rcases ht2 with h2 | h2 <;> subst h1 <;> subst h2 <;>
        first
        | exact absurd rfl hne
        | decide)).1

/-- Counterexample to C6 as stated: on a document already in the split
state (two screens sharing one bus location), split succeeds without
cloning (both candidates are ineligible) and the following merge collapses
the two screens into one, so the round trip does not restore the original
screen count. -/
theorem split_merge_roundtrip_cex :
    (enable_separate_x_screens none none wDocSplit).1 = true ∧
    ((disable_separate_x_screens none
      (enable_separate_x_screens none none wDocSplit).2).2).screens.length = 1 ∧
    wDocSplit.screens.length = 2 := by
  refine ⟨by decide, by decide, by decide⟩

end MultipleScreens
